import Mathlib

set_option maxHeartbeats 1000000

/-! Verification development for the photobooth fleet dashboard (src/app.py).

The dashboard is a Streamlit front end over a Dropbox blob store.  We embed
its helper functions (fleet reading, per-station config load/save/create,
action and asset uploads, action listing) over an explicit store state, and
model the external JSON library (json.load / json.dumps(indent=2)) with an
executable renderer and parser proved inverse on escape-free documents. -/

namespace Photobooth

/-! ## Character utilities -/

def isWsC (c : Char) : Bool := c == ' ' || c == '\t' || c == '\n' || c == '\r'

def isDigitC (c : Char) : Bool := decide (48 ≤ c.toNat) && decide (c.toNat ≤ 57)

/-- Decimal digit character for a value below ten. -/
def digitChar : Nat → Char
  | 0 => '0' | 1 => '1' | 2 => '2' | 3 => '3' | 4 => '4'
  | 5 => '5' | 6 => '6' | 7 => '7' | 8 => '8' | 9 => '9'
  | _ => '*'

/-- Fuel-driven decimal rendering of a natural number (most significant first). -/
def natDigitsAux : Nat → Nat → List Char
  | 0, _ => []
  | Nat.succ f, n =>
    if n < 10 then [digitChar n] else natDigitsAux f (n / 10) ++ [digitChar (n % 10)]

def natDigits (n : Nat) : List Char := natDigitsAux (n + 1) n

/-- Accumulating decimal scanner: consumes leading digits, leaves the rest. -/
def parseDigits (acc : Nat) : List Char → Nat × List Char
  | [] => (acc, [])
  | c :: cs => if isDigitC c then parseDigits (acc * 10 + (c.toNat - 48)) cs else (acc, c :: cs)

/-- The continuation after a rendered number must not begin with a digit. -/
def noDigitHead : List Char → Prop
  | [] => True
  | c :: _ => isDigitC c = false

def allWsC (l : List Char) : Prop := ∀ c ∈ l, isWsC c = true

/-! ## JSON documents: the values exchanged via the external json library; objects keep their fields in insertion order, as Python dicts do. -/

inductive Json where
  | null
  | bool (b : Bool)
  | int (n : Int)
  | str (s : String)
  | arr (elems : List Json)
  | obj (fields : List (String × Json))

/-- First field with the given key of a JSON object, if any. -/
def objGet (j : Json) (key : String) : Option Json :=
  match j with
  | .obj fs => fs.lookup key
  | _ => none

def spacesC (n : Nat) : List Char := List.replicate n ' '

/-- JSON string escaping as performed by json.dumps for the common escapes
(double quote, backslash, newline, tab, carriage return); other control
characters and the ensure_ascii transform are outside the modelled
character range. -/
def escChar (c : Char) : List Char :=
  if c = '"' then ['\\', '"']
  else if c = '\\' then ['\\', '\\']
  else if c = '\n' then ['\\', 'n']
  else if c = '\t' then ['\\', 't']
  else if c = '\r' then ['\\', 'r']
  else [c]

def escapeChars (l : List Char) : List Char := l.foldr (fun c acc => escChar c ++ acc) []

/-- Decimal rendering of an integer, as Python repr inside json.dumps. -/
def intChars (n : Int) : List Char :=
  if n < 0 then '-' :: natDigits n.natAbs else natDigits n.toNat

mutual

/-- Rendering of a JSON value at a given indentation level, following
json.dumps(value, indent=2): children indented two further columns, items
separated by a comma and a newline, empty containers rendered inline. -/
def renderVal : Nat → Json → List Char
  | _, .null => ['n', 'u', 'l', 'l']
  | _, .bool true => ['t', 'r', 'u', 'e']
  | _, .bool false => ['f', 'a', 'l', 's', 'e']
  | _, .int n => intChars n
  | _, .str s => '"' :: escapeChars s.data ++ ['"']
  | _, .arr [] => ['[', ']']
  | ind, .arr (x :: xs) =>
    '[' :: '\n' :: renderArrItems (ind + 2) x xs ++ '\n' :: (spacesC ind ++ [']'])
  | _, .obj [] => ['\x7b', '\x7d']
  | ind, .obj (f :: fs) =>
    '\x7b' :: '\n' :: renderObjItems (ind + 2) f fs ++ '\n' :: (spacesC ind ++ ['\x7d'])
termination_by ind j => sizeOf j
decreasing_by all_goals (simp_wf; (try omega))

def renderArrItems : Nat → Json → List Json → List Char
  | ind, x, xs =>
    spacesC ind ++ renderVal ind x ++
      (match xs with
       | [] => []
       | y :: ys => ',' :: '\n' :: renderArrItems ind y ys)
termination_by ind x xs => sizeOf x + sizeOf xs + 1
decreasing_by all_goals (simp_wf; (try omega))

def renderObjItems : Nat → (String × Json) → List (String × Json) → List Char
  | ind, (k, v), fs =>
    spacesC ind ++ ('"' :: escapeChars k.data ++ ['"', ':', ' ']) ++ renderVal ind v ++
      (match fs with
       | [] => []
       | g :: gs => ',' :: '\n' :: renderObjItems ind g gs)
termination_by ind f fs => sizeOf f + sizeOf fs + 1
decreasing_by all_goals (simp_wf; (try omega))

end

/-- Model of json.dumps(value, indent=2). -/
def dumps (j : Json) : String := String.mk (renderVal 0 j)

def validStrB (s : String) : Bool :=
  s.data.all (fun c =>
    decide (32 ≤ c.toNat) && decide (c.toNat ≤ 126) && !(c == '"') && !(c == '\\'))

mutual

/-- Documents whose strings stay inside printable ASCII with no characters
needing escapes; all configs written by app.py are of this form. -/
def validJson : Json → Bool
  | .null => true
  | .bool _ => true
  | .int _ => true
  | .str s => validStrB s
  | .arr xs => validList xs
  | .obj fs => validFields fs
termination_by j => sizeOf j
decreasing_by all_goals (simp_wf; (try omega))

def validList : List Json → Bool
  | [] => true
  | x :: xs => validJson x && validList xs
termination_by xs => sizeOf xs
decreasing_by all_goals (simp_wf; (try omega))

def validFields : List (String × Json) → Bool
  | [] => true
  | (k, v) :: fs => validStrB k && validJson v && validFields fs
termination_by fs => sizeOf fs
decreasing_by all_goals (simp_wf; (try omega))

end

mutual

/-- Parser fuel that suffices for a value. -/
def valFuel : Json → Nat
  | .null => 1
  | .bool _ => 1
  | .int _ => 1
  | .str _ => 1
  | .arr [] => 1
  | .arr (x :: xs) => 1 + itemsFuel x xs
  | .obj [] => 1
  | .obj (f :: fs) => 1 + fieldsFuel f fs
termination_by j => sizeOf j
decreasing_by all_goals (simp_wf; (try omega))

def itemsFuel : Json → List Json → Nat
  | x, [] => 1 + valFuel x
  | x, y :: ys => 1 + valFuel x + itemsFuel y ys
termination_by x xs => sizeOf x + sizeOf xs + 1
decreasing_by all_goals (simp_wf; (try omega))

def fieldsFuel : (String × Json) → List (String × Json) → Nat
  | (_, v), [] => 1 + valFuel v
  | (_, v), g :: gs => 1 + valFuel v + fieldsFuel g gs
termination_by f fs => sizeOf f + sizeOf fs + 1
decreasing_by all_goals (simp_wf; (try omega))

end

/-! ## JSON parsing (model of json.load): recursive descent over the character list, total by structural recursion on fuel; the entry point supplies fuel exceeding the input length, which the proofs below show is enough for every rendered document. -/

def skipWs : List Char → List Char
  | [] => []
  | c :: cs => if isWsC c then skipWs cs else c :: cs

def expectChars : List Char → List Char → Option (List Char)
  | [], cs => some cs
  | _ :: _, [] => none
  | p :: ps, c :: cs => if c = p then expectChars ps cs else none

def unescChar (c : Char) : Option Char :=
  if c = '"' then some '"'
  else if c = '\\' then some '\\'
  else if c = '/' then some '/'
  else if c = 'n' then some '\n'
  else if c = 't' then some '\t'
  else if c = 'r' then some '\r'
  else none

/-- Characters of a string literal after the opening quote, up to and
consuming the closing quote. -/
def parseStrBody : List Char → Option (List Char × List Char)
  | [] => none
  | c :: cs =>
    if c = '"' then some ([], cs)
    else if c = '\\' then
      match cs with
      | [] => none
      | e :: cs' =>
        match unescChar e with
        | none => none
        | some u =>
          match parseStrBody cs' with
          | none => none
          | some (s, rest) => some (u :: s, rest)
    else
      match parseStrBody cs with
      | none => none
      | some (s, rest) => some (c :: s, rest)

/-- What the parser is currently reading: a value, the items of a non-empty
array, or the fields of a non-empty object. -/
inductive PMode where
  | val
  | arritems
  | objfields

inductive PRes where
  | v (j : Json)
  | items (xs : List Json)
  | fields (fs : List (String × Json))

def parseF : Nat → PMode → List Char → Option (PRes × List Char)
  | 0, _, _ => none
  | Nat.succ f, PMode.val, cs =>
    match skipWs cs with
    | [] => none
    | c :: cs' =>
      if c = 'n' then
        match expectChars ['u', 'l', 'l'] cs' with
        | some r => some (PRes.v Json.null, r)
        | none => none
      else if c = 't' then
        match expectChars ['r', 'u', 'e'] cs' with
        | some r => some (PRes.v (Json.bool true), r)
        | none => none
      else if c = 'f' then
        match expectChars ['a', 'l', 's', 'e'] cs' with
        | some r => some (PRes.v (Json.bool false), r)
        | none => none
      else if c = '"' then
        match parseStrBody cs' with
        | some (k, r) => some (PRes.v (Json.str (String.mk k)), r)
        | none => none
      else if c = '-' then
        match cs' with
        | [] => none
        | d :: ds =>
          if isDigitC d then
            some (PRes.v (Json.int (-(Int.ofNat (parseDigits 0 (d :: ds)).1))),
              (parseDigits 0 (d :: ds)).2)
          else none
      else if isDigitC c then
        some (PRes.v (Json.int (Int.ofNat (parseDigits 0 (c :: cs')).1)),
          (parseDigits 0 (c :: cs')).2)
      else if c = '[' then
        match skipWs cs' with
        | [] => none
        | d :: ds =>
          if d = ']' then some (PRes.v (Json.arr []), ds)
          else
            match parseF f PMode.arritems (d :: ds) with
            | some (PRes.items xs, r) => some (PRes.v (Json.arr xs), r)
            | _ => none
      else if c = '\x7b' then
        match skipWs cs' with
        | [] => none
        | d :: ds =>
          if d = '\x7d' then some (PRes.v (Json.obj []), ds)
          else
            match parseF f PMode.objfields (d :: ds) with
            | some (PRes.fields fs, r) => some (PRes.v (Json.obj fs), r)
            | _ => none
      else none
  | Nat.succ f, PMode.arritems, cs =>
    match parseF f PMode.val cs with
    | some (PRes.v x, r) =>
      (match skipWs r with
       | [] => none
       | d :: ds =>
         if d = ',' then
           match parseF f PMode.arritems ds with
           | some (PRes.items xs, r2) => some (PRes.items (x :: xs), r2)
           | _ => none
         else if d = ']' then some (PRes.items [x], ds)
         else none)
    | _ => none
  | Nat.succ f, PMode.objfields, cs =>
    match skipWs cs with
    | [] => none
    | c :: cs' =>
      if c = '"' then
        match parseStrBody cs' with
        | some (k, r) =>
          (match skipWs r with
           | [] => none
           | e :: es =>
             if e = ':' then
               match parseF f PMode.val es with
               | some (PRes.v v, r2) =>
                 (match skipWs r2 with
                  | [] => none
                  | g :: gs =>
                    if g = ',' then
                      match parseF f PMode.objfields gs with
                      | some (PRes.fields fs, r3) => some (PRes.fields ((String.mk k, v) :: fs), r3)
                      | _ => none
                    else if g = '\x7d' then some (PRes.fields [(String.mk k, v)], gs)
                    else none)
               | _ => none
             else none)
        | none => none
      else none

/-- Model of json.load: parse a whole document, requiring only trailing
whitespace after the value. -/
def parseJson (s : String) : Option Json :=
  match parseF (s.data.length + 1) PMode.val s.data with
  | some (PRes.v j, rest) => if skipWs rest = [] then some j else none
  | _ => none

/-! ## Round-trip statements -/

/-- Characters never touched by the modelled JSON string escaping. -/
def validCh (c : Char) : Prop := 32 ≤ c.toNat ∧ c.toNat ≤ 126 ∧ c ≠ '"' ∧ c ≠ '\\'

/-- Induction statement: the parser recovers any rendered valid value,
with leading whitespace allowed and an arbitrary non-digit continuation. -/
def PvStmt (f : Nat) : Prop :=
  ∀ (j : Json) (ind : Nat) (ws rest : List Char),
    validJson j = true → valFuel j ≤ f → allWsC ws → noDigitHead rest →
    parseF f PMode.val (ws ++ renderVal ind j ++ rest) = some (PRes.v j, rest)

/-- Induction statement for the items of a non-empty array followed by the
closing bracket. -/
def PaStmt (f : Nat) : Prop :=
  ∀ (x : Json) (xs : List Json) (ind : Nat) (ws1 ws2 rest : List Char),
    validJson x = true → validList xs = true → itemsFuel x xs ≤ f →
    allWsC ws1 → allWsC ws2 →
    parseF f PMode.arritems (ws1 ++ renderArrItems ind x xs ++ (ws2 ++ ']' :: rest)) =
      some (PRes.items (x :: xs), rest)

/-- Induction statement for the fields of a non-empty object followed by the
closing brace. -/
def PoStmt (f : Nat) : Prop :=
  ∀ (k : String) (v : Json) (fs : List (String × Json)) (ind : Nat) (ws1 ws2 rest : List Char),
    validStrB k = true → validJson v = true → validFields fs = true →
    fieldsFuel (k, v) fs ≤ f → allWsC ws1 → allWsC ws2 →
    parseF f PMode.objfields (ws1 ++ renderObjItems ind (k, v) fs ++ (ws2 ++ '\x7d' :: rest)) =
      some (PRes.fields ((k, v) :: fs), rest)

/-! ## The blob store: explicit state standing for the Dropbox account reached through the dbx client. -/

inductive DbxErr where
  | apiFail
  | notFound

structure Entry where
  name : String
  path_lower : String

structure Store where
  files : List (String × String)
  failPaths : List String
  listing : String → Option (List Entry)

/-- Model of dbx.files_download: raises on an API failure or a missing
path, returns the blob otherwise. -/
def download (st : Store) (path : String) : Except DbxErr String :=
  if path ∈ st.failPaths then .error .apiFail
  else
    match st.files.lookup path with
    | some content => .ok content
    | none => .error .notFound

/-- Model of dbx.files_upload with WriteMode.overwrite: raises on an API
failure, otherwise replaces whatever was stored at the path. -/
def upload (st : Store) (path content : String) : Except DbxErr Store :=
  if path ∈ st.failPaths then .error .apiFail
  else .ok { st with files := (path, content) :: st.files }

def errMsg : DbxErr → String
  | .apiFail => "ApiError"
  | .notFound => "not_found"

/-! ## String helpers used by app.py -/

/-- Python str.endswith. -/
def endsWithS (s suffix : String) : Bool := suffix.data.isSuffixOf s.data

/-- Python str.replace: replaces every non-overlapping occurrence, left to
right; fuel-driven so it stays structural (the fuel always suffices). -/
def replaceAux : Nat → List Char → List Char → List Char → List Char
  | 0, _, _, l => l
  | Nat.succ f, pat, rep, l =>
    match l with
    | [] => []
    | c :: cs =>
      if pat ≠ [] ∧ pat.isPrefixOf (c :: cs) then
        rep ++ replaceAux f pat rep (List.drop pat.length (c :: cs))
      else c :: replaceAux f pat rep cs

def pyReplace (s pat rep : String) : String :=
  String.mk (replaceAux (s.data.length + 1) pat.data rep.data s.data)

/-- Code-point comparison of character lists, as Python compares strings. -/
def lexLe : List Char → List Char → Bool
  | [], _ => true
  | _ :: _, [] => false
  | a :: as, b :: bs =>
    if a.toNat < b.toNat then true
    else if b.toNat < a.toNat then false
    else lexLe as bs

def strLeB (a b : String) : Bool := lexLe a.data b.data

def insortStr (x : String) : List String → List String
  | [] => [x]
  | y :: ys => if strLeB x y then x :: y :: ys else y :: insortStr x ys

/-- Model of Python sorted on a list of strings (ascending insertion sort). -/
def pysort (l : List String) : List String := l.foldr insortStr []

/-! ## app.py constants (lines 18-20) and helper functions -/

def GLOBAL_ASSETS : String := "/_Global_Assets"

def ACTIONS_FOLDER : String := GLOBAL_ASSETS ++ "/Actions"

def HEALTH_FOLDER : String := GLOBAL_ASSETS ++ "/_Server_Health"

/-- get_fleet_data (app.py lines 62-75): lists the health folder, keeps the
entries named with a .json suffix, downloads and parses each, appending the
parsed record; any per-entry failure is swallowed, and a listing failure
yields the empty list.  The Python for loop iterates the entry list bound
once at loop entry, so the rebinding of res inside the loop body does not
affect iteration. -/
def get_fleet_data (st : Store) : List Json :=
  match st.listing HEALTH_FOLDER with
  | none => []
  | some entries =>
    entries.foldl
      (fun servers entry =>
        if endsWithS entry.name ".json" then
          match download st entry.path_lower with
          | .ok content =>
            match parseJson content with
            | some data => servers ++ [data]
            | none => servers
          | .error _ => servers
        else servers) []

/-- get_available_actions (app.py lines 77-86): legacy global actions. -/
def get_available_actions (st : Store) : List String :=
  pysort
    (match st.listing ACTIONS_FOLDER with
     | none => []
     | some entries =>
       entries.foldl
         (fun actions entry =>
           if endsWithS entry.name ".atn" then actions ++ [pyReplace entry.name ".atn" ""]
           else actions) [])

/-- get_station_actions (app.py lines 88-98): per-station actions folder. -/
def get_station_actions (st : Store) (station_id : String) : List String :=
  pysort
    (match st.listing ("/" ++ station_id ++ "/actions") with
     | none => []
     | some entries =>
       entries.foldl
         (fun actions entry =>
           if endsWithS entry.name ".atn" then actions ++ [pyReplace entry.name ".atn" ""]
           else actions) [])

/-- load_config (app.py lines 100-106): download and parse the station's
config document; any failure (missing file, API error, malformed JSON) is
caught and collapsed to None. -/
def load_config (st : Store) (station_id : String) : Option Json × String :=
  let path := "/" ++ station_id ++ "/config.json"
  match download st path with
  | .ok content =>
    match parseJson content with
    | some j => (some j, path)
    | none => (none, path)
  | .error _ => (none, path)

/-- save_config (app.py lines 129-132): serialise with json.dumps(indent=2)
and upload with overwrite; returns True.  There is no try/except here: a
storage failure propagates to the caller as an exception (the .error case). -/
def save_config (st : Store) (config_data : Json) (path : String) :
    Except DbxErr (Store × Bool) :=
  match upload st path (dumps config_data) with
  | .ok st2 => .ok (st2, true)
  | .error e => .error e

/-- The default_data document built by create_default_config
(app.py lines 109-124). -/
def default_config (station_id : String) : Json :=
  Json.obj
    [("server_id", Json.str "Unassigned"),
     ("station_id", Json.str station_id),
     ("station_enabled", Json.bool true),
     ("settings", Json.obj
       [("remove_background", Json.bool false),
        ("remove_bg_api_key", Json.str ""),
        ("orientation_mode", Json.str "auto"),
        ("temperature", Json.int 0)]),
     ("active_profile", Json.obj
       [("portrait", Json.obj
         [("action_set", Json.str "Global_Actions"),
          ("action_name", Json.str "Portrait")]),
        ("landscape", Json.obj
         [("action_set", Json.str "Global_Actions"),
          ("action_name", Json.str "Landscape")])]),
     ("subfolder_action_set", Json.str "Event_Subfolders")]

/-- create_default_config (app.py lines 108-127): build the default
document, save it at the canonical path, return it with the path.  A save
failure propagates (no try/except). -/
def create_default_config (st : Store) (station_id : String) :
    Except DbxErr (Store × Json × String) :=
  let path := "/" ++ station_id ++ "/config.json"
  match save_config st (default_config station_id) path with
  | .ok (st2, _) => .ok (st2, default_config station_id, path)
  | .error e => .error e

/-- upload_asset (app.py lines 134-135): overwrite upload of the file bytes
at the target path; failures propagate. -/
def upload_asset (st : Store) (fileBytes target_path : String) : Except DbxErr Store :=
  upload st target_path fileBytes

/-- create_trigger_image (app.py lines 182-188): the bytes of the small
red JPEG; modelled as an abstract non-empty byte string, its exact pixels
being irrelevant to the store. -/
def create_trigger_image : String := "TRIGGER_JPEG_BYTES"

/-- Python f-string rendering of a possibly-None subfolder value. -/
def pyOptStr : Option String → String
  | none => "None"
  | some s => s

/-- upload_action_to_station (app.py lines 137-180): compute the target
action filename and trigger path from the target type, upload the action
blob, then upload the trigger image; the whole body is wrapped in
try/except, so a failure at either step returns (False, message) while
keeping whatever uploads already happened. -/
def upload_action_to_station (st : Store) (fileBytes station_id target_type : String)
    (subfolder : Option String) : Store × Bool × String :=
  let target_filename :=
    if target_type = "root" then station_id ++ "_Root.atn"
    else station_id ++ "_" ++ pyOptStr subfolder ++ ".atn"
  let trigger_path :=
    if target_type = "root" then "/" ++ station_id ++ "/incoming/_trigger_reload.jpg"
    else "/" ++ station_id ++ "/incoming/" ++ pyOptStr subfolder ++ "/_trigger_reload.jpg"
  let action_path := "/" ++ station_id ++ "/actions/" ++ target_filename
  match upload st action_path fileBytes with
  | .error e => (st, false, "❌ Upload failed: " ++ errMsg e)
  | .ok st1 =>
    match upload st1 trigger_path create_trigger_image with
    | .error e => (st1, false, "❌ Upload failed: " ++ errMsg e)
    | .ok st2 => (st2, true, "✅ Uploaded as " ++ target_filename ++ " and triggered reload!")

/-- The Assets-tab background upload call site (app.py lines 458-464):
Python picks the suffixed name when the suffix string is truthy
(non-empty). -/
def upload_background (st : Store) (station suffix fileBytes : String) :
    Except DbxErr (Store × String) :=
  let name := if suffix ≠ "" then "background" ++ suffix ++ ".jpg" else "background.jpg"
  match upload_asset st fileBytes ("/" ++ station ++ "/templates/" ++ name) with
  | .ok st2 => .ok (st2, name)
  | .error e => .error e

/-- The Assets-tab overlay upload call site (app.py lines 466-472). -/
def upload_overlay (st : Store) (station suffix fileBytes : String) :
    Except DbxErr (Store × String) :=
  let name := if suffix ≠ "" then "overlay" ++ suffix ++ ".png" else "overlay.png"
  match upload_asset st fileBytes ("/" ++ station ++ "/templates/" ++ name) with
  | .ok st2 => .ok (st2, name)
  | .error e => .error e

/-- Ascending order of a string list under the Python comparison. -/
def SortedStr (l : List String) : Prop := l.Pairwise (fun a b => strLeB a b = true)

/-- Modelled from the spec: the display statuses of section 4.3; the code
for this component is not in src/app.py. -/
inductive DisplayStatus where
  | Disabled
  | Unassigned
  | OfflineServerMissing
  | Online
  | Syncing

/-- Modelled from the spec: a ServerHealthRecord (section 3), reduced to
the fields the reconciler reads. -/
structure ServerHealth where
  server_id : String
  status : String
  active_stations : List String
  standby_stations : List String

/-- Modelled from the spec: the StationConfig fields the reconciler reads
(section 3); an absent assigned_server is none. -/
structure StationView where
  station_id : String
  station_enabled : Bool
  assigned_server : Option String

/-- Modelled from the spec: the decision table of section 4.3, evaluated in
precedence order 1-5; the code for this component is not in src/app.py. -/
def reconcileStatus (cfg : StationView) (fleet : List ServerHealth) : DisplayStatus :=
  if cfg.station_enabled = false then DisplayStatus.Disabled
  else
    match cfg.assigned_server with
    | none => DisplayStatus.Unassigned
    | some srv =>
      if srv = "Unassigned" then DisplayStatus.Unassigned
      else
        match fleet.find? (fun r => r.server_id == srv) with
        | none => DisplayStatus.OfflineServerMissing
        | some r =>
          if cfg.station_id ∈ r.active_stations then DisplayStatus.Online
          else DisplayStatus.Syncing

/-! ## Concrete stores and fleets used by the claim witnesses and counterexamples -/

def c1Fleet : List ServerHealth := [⟨"S1", "OK", ["A"], []⟩]

def c2Store : Store := ⟨[], [], fun _ => none⟩

def c3Store : Store := ⟨[], ["/HP1/config.json"], fun _ => none⟩

def c4StoreGood : Store := ⟨[("/" ++ "HP1" ++ "/config.json", "\x7b\x7d")], [], fun _ => none⟩

def c5Store : Store := ⟨[("/" ++ "HP1" ++ "/config.json", "\x7b \x7d")], [], fun _ => none⟩

def c5WStore : Store :=
  ⟨[("/" ++ "HP9" ++ "/config.json", dumps (default_config "HP9"))], [], fun _ => none⟩

def c6Store : Store :=
  ⟨[("/h/s1.json", "\x7b\x7d"), ("/h/s3.json", "bad")], [],
   fun p =>
     if p = HEALTH_FOLDER then
       some [⟨"s1.json", "/h/s1.json"⟩, ⟨"notes.txt", "/h/notes.txt"⟩,
             ⟨"s2.json", "/h/s2.json"⟩, ⟨"s3.json", "/h/s3.json"⟩]
     else none⟩

def c8Store : Store :=
  ⟨[], ["/HP1/incoming/_trigger_reload.jpg", "/HP1/incoming/001/_trigger_reload.jpg"],
   fun _ => none⟩

/-- The claim's reading of the listing transform: strip exactly the
trailing ".atn" suffix from the entry name (stated from the claim's words,
for comparison with the code's replace-all behaviour). -/
def stripAtnSuffix (name : String) : String :=
  String.mk (name.data.take (name.data.length - 4))

/-- The claim's reading of the global action listing: suffix-stripped
names of the .atn entries in ascending order. -/
def get_available_actions_claimed (st : Store) : List String :=
  pysort
    (match st.listing ACTIONS_FOLDER with
     | none => []
     | some entries =>
       (entries.filter (fun e => endsWithS e.name ".atn")).map (fun e => stripAtnSuffix e.name))

def c10Store : Store :=
  ⟨[], [],
   fun p => if p = ACTIONS_FOLDER then some [⟨"a.atnb.atn", "/g/a.atnb.atn"⟩] else none⟩

def c10WStore : Store :=
  ⟨[], [],
   fun p =>
     if p = ACTIONS_FOLDER then
       some [⟨"b.atn", "/g/b.atn"⟩, ⟨"a.atn", "/g/a.atn"⟩, ⟨"x.txt", "/g/x.txt"⟩]
     else
       if p = "/" ++ "HP1" ++ "/actions" then some [⟨"HP1_Root.atn", "/h/HP1_Root.atn"⟩]
       else none⟩

/-! ## Decimal digit lemmas -/

theorem digitChar_isDigit (d : Nat) (h : d < 10) : isDigitC (digitChar d) = true := by
  interval_cases d <;> decide

theorem digitChar_toNat (d : Nat) (h : d < 10) : (digitChar d).toNat - 48 = d := by
  interval_cases d <;> decide

theorem natDigitsAux_fuel (n : Nat) : ∀ f g, n < f → n < g →
    natDigitsAux f n = natDigitsAux g n := by
  induction n using Nat.strong_induction_on with
  | _ n ih =>
    intro f g hf hg
    match f, g with
    | Nat.succ f, Nat.succ g =>
      by_cases h10 : n < 10
      · simp [natDigitsAux, h10]
      · have hdiv : n / 10 < n := Nat.div_lt_self (by omega) (by omega)
        simp only [natDigitsAux, h10, if_false]
        rw [ih (n / 10) hdiv f g (by omega) (by omega)]

/-- The defining recurrence of `natDigits`, free of fuel. -/
theorem natDigits_eq (n : Nat) :
    natDigits n = if n < 10 then [digitChar n] else natDigits (n / 10) ++ [digitChar (n % 10)] := by
  by_cases h10 : n < 10
  · simp [natDigits, natDigitsAux, h10]
  · have hdiv : n / 10 < n := Nat.div_lt_self (by omega) (by omega)
    rw [if_neg h10]
    conv_lhs => rw [natDigits, natDigitsAux]
    rw [if_neg h10, natDigitsAux_fuel (n / 10) n (n / 10 + 1) (by omega) (by omega)]
    rfl

theorem natDigits_head (n : Nat) :
    ∃ d t, natDigits n = d :: t ∧ isDigitC d = true := by
  induction n using Nat.strong_induction_on with
  | _ n ih =>
    rw [natDigits_eq]
    by_cases h10 : n < 10
    · exact ⟨digitChar n, [], by simp [h10], digitChar_isDigit n h10⟩
    · have hdiv : n / 10 < n := Nat.div_lt_self (by omega) (by omega)
      obtain ⟨d, t, hdt, hd⟩ := ih (n / 10) hdiv
      exact ⟨d, t ++ [digitChar (n % 10)], by simp [h10, hdt], hd⟩

theorem parseDigits_noDigit (acc : Nat) (rest : List Char) (h : noDigitHead rest) :
    parseDigits acc rest = (acc, rest) := by
  cases rest with
  | nil => rfl
  | cons c cs => simp only [noDigitHead] at h; simp [parseDigits, h]

theorem parseDigits_natDigits_aux (n : Nat) : ∀ acc rest,
    parseDigits acc (natDigits n ++ rest) =
      parseDigits (acc * 10 ^ (natDigits n).length + n) rest := by
  induction n using Nat.strong_induction_on with
  | _ n ih =>
    intro acc rest
    by_cases h10 : n < 10
    · rw [natDigits_eq]
      simp only [h10, if_true, List.cons_append, List.nil_append]
      rw [parseDigits]
      simp [digitChar_isDigit n h10, digitChar_toNat n h10, natDigits_eq, h10]
    · have hdiv : n / 10 < n := Nat.div_lt_self (by omega) (by omega)
      rw [natDigits_eq]
      simp only [h10, if_false, List.append_assoc, List.cons_append, List.nil_append]
      rw [ih (n / 10) hdiv]
      rw [parseDigits]
      have hm : n % 10 < 10 := Nat.mod_lt _ (by omega)
      simp only [digitChar_isDigit (n % 10) hm, if_true, digitChar_toNat (n % 10) hm,
        List.length_append, List.length_cons, List.length_nil]
      congr 1
      have hpow : 10 ^ ((natDigits (n / 10)).length + (0 + 1)) =
          10 ^ (natDigits (n / 10)).length * 10 := by
        rw [Nat.zero_add, Nat.pow_succ]
      rw [hpow]
      have := Nat.div_add_mod n 10
      ring_nf
      omega

theorem parseDigits_natDigits (n : Nat) (rest : List Char) (h : noDigitHead rest) :
    parseDigits 0 (natDigits n ++ rest) = (n, rest) := by
  rw [parseDigits_natDigits_aux, Nat.zero_mul, Nat.zero_add, parseDigits_noDigit _ _ h]

/-! ## Round trip: parsing a rendered document -/

theorem skipWs_idem (cs : List Char) : skipWs (skipWs cs) = skipWs cs := by
  induction cs with
  | nil => rfl
  | cons c t ih =>
    by_cases h : isWsC c = true
    · simp [skipWs, h, ih]
    · simp at h
      simp [skipWs, h]

theorem skipWs_cons_not (c : Char) (t : List Char) (h : isWsC c = false) :
    skipWs (c :: t) = c :: t := by
  simp [skipWs, h]

theorem skipWs_allWs_append (ws cs : List Char) (h : allWsC ws) :
    skipWs (ws ++ cs) = skipWs cs := by
  induction ws with
  | nil => rfl
  | cons w t ih =>
    have hw : isWsC w = true := h w (by simp)
    have ht : allWsC t := fun c hc => h c (by simp [hc])
    simp [skipWs, hw, ih ht]

theorem skipWs_ws_cons (ws : List Char) (c : Char) (t : List Char)
    (hws : allWsC ws) (hc : isWsC c = false) : skipWs (ws ++ c :: t) = c :: t := by
  rw [skipWs_allWs_append ws _ hws, skipWs_cons_not c t hc]

theorem allWsC_nil : allWsC [] := fun c hc => absurd hc (List.not_mem_nil c)

theorem allWsC_cons (c : Char) (t : List Char) (hc : isWsC c = true) (ht : allWsC t) :
    allWsC (c :: t) := by
  intro d hd
  rcases List.mem_cons.mp hd with h | h
  · rw [h]; exact hc
  · exact ht d h

theorem allWsC_spaces (n : Nat) : allWsC (spacesC n) := by
  intro c hc
  have := List.eq_of_mem_replicate hc
  rw [this]
  decide

theorem allWsC_append (l1 l2 : List Char) (h1 : allWsC l1) (h2 : allWsC l2) :
    allWsC (l1 ++ l2) := by
  intro c hc
  rcases List.mem_append.mp hc with h | h
  · exact h1 c h
  · exact h2 c h

theorem ws_not_digit (c : Char) (h : isWsC c = true) : isDigitC c = false := by
  simp only [isWsC, Bool.or_eq_true, beq_iff_eq] at h
  rcases h with ((h | h) | h) | h <;> (rw [h]; decide)

theorem noDigitHead_cons (c : Char) (t : List Char) (hc : isDigitC c = false) :
    noDigitHead (c :: t) := hc

theorem noDigitHead_ws_cons (ws : List Char) (c : Char) (r : List Char)
    (hws : allWsC ws) (hc : isDigitC c = false) : noDigitHead (ws ++ c :: r) := by
  cases ws with
  | nil => exact hc
  | cons w t =>
    have hw : isWsC w = true := hws w (by simp)
    simpa [noDigitHead] using ws_not_digit w hw

theorem expectChars_append (p rest : List Char) : expectChars p (p ++ rest) = some rest := by
  induction p with
  | nil => rfl
  | cons c t ih => simp [expectChars, ih]

theorem validStrB_iff (s : String) : validStrB s = true ↔ ∀ c ∈ s.data, validCh c := by
  simp [validStrB, validCh, List.all_eq_true, and_assoc]

theorem validCh_facts (c : Char) (h : validCh c) :
    c ≠ '"' ∧ c ≠ '\\' ∧ c ≠ '\n' ∧ c ≠ '\t' ∧ c ≠ '\r' := by
  obtain ⟨h32, _, hq, hb⟩ := h
  refine ⟨hq, hb, ?_, ?_, ?_⟩ <;>
    (intro he; rw [he] at h32; exact absurd h32 (by decide))

theorem escapeChars_eq (l : List Char) (h : ∀ c ∈ l, validCh c) : escapeChars l = l := by
  induction l with
  | nil => rfl
  | cons c t ih =>
    obtain ⟨hq, hb, hn, ht, hr⟩ := validCh_facts c (h c (by simp))
    have : escChar c = [c] := by simp [escChar, hq, hb, hn, ht, hr]
    simp only [escapeChars, List.foldr_cons, this]
    have ih2 := ih (fun d hd => h d (by simp [hd]))
    simp only [escapeChars] at ih2
    simp [ih2]

theorem parseStrBody_append (l rest : List Char) (h : ∀ c ∈ l, validCh c) :
    parseStrBody (l ++ '"' :: rest) = some (l, rest) := by
  induction l with
  | nil =>
    rw [List.nil_append, parseStrBody.eq_def]
    simp
  | cons c t ih =>
    obtain ⟨hq, hb, _, _, _⟩ := validCh_facts c (h c (by simp))
    have ih2 := ih (fun d hd => h d (by simp [hd]))
    rw [List.cons_append, parseStrBody.eq_def]
    simp [hq, hb, ih2]

theorem digit_facts (c : Char) (h : isDigitC c = true) :
    c ≠ 'n' ∧ c ≠ 't' ∧ c ≠ 'f' ∧ c ≠ '"' ∧ c ≠ '-' ∧ c ≠ '[' ∧ c ≠ '\x7b' ∧
      c ≠ ']' ∧ c ≠ '\x7d' ∧ c ≠ ',' ∧ c ≠ ':' ∧ isWsC c = false := by
  refine ⟨?_, ?_, ?_, ?_, ?_, ?_, ?_, ?_, ?_, ?_, ?_, ?_⟩
  case _ => intro he; rw [he] at h; exact absurd h (by decide)
  case _ => intro he; rw [he] at h; exact absurd h (by decide)
  case _ => intro he; rw [he] at h; exact absurd h (by decide)
  case _ => intro he; rw [he] at h; exact absurd h (by decide)
  case _ => intro he; rw [he] at h; exact absurd h (by decide)
  case _ => intro he; rw [he] at h; exact absurd h (by decide)
  case _ => intro he; rw [he] at h; exact absurd h (by decide)
  case _ => intro he; rw [he] at h; exact absurd h (by decide)
  case _ => intro he; rw [he] at h; exact absurd h (by decide)
  case _ => intro he; rw [he] at h; exact absurd h (by decide)
  case _ => intro he; rw [he] at h; exact absurd h (by decide)
  case _ =>
    have h1 : c ≠ ' ' := fun he => by rw [he] at h; exact absurd h (by decide)
    have h2 : c ≠ '\n' := fun he => by rw [he] at h; exact absurd h (by decide)
    have h3 : c ≠ '\t' := fun he => by rw [he] at h; exact absurd h (by decide)
    have h4 : c ≠ '\r' := fun he => by rw [he] at h; exact absurd h (by decide)
    simp [isWsC, h1, h2, h3, h4]

theorem str_mk_data (s : String) : String.mk s.data = s := rfl

theorem renderVal_head (ind : Nat) (j : Json) :
    ∃ c t, renderVal ind j = c :: t ∧ isWsC c = false ∧ c ≠ ']' ∧ c ≠ '\x7d' := by
  cases j with
  | null => exact ⟨'n', ['u', 'l', 'l'], by simp [renderVal], by decide, by decide, by decide⟩
  | bool b => cases b with
    | true => exact ⟨'t', ['r', 'u', 'e'], by simp [renderVal], by decide, by decide, by decide⟩
    | false =>
      exact ⟨'f', ['a', 'l', 's', 'e'], by simp [renderVal], by decide, by decide, by decide⟩
  | int n =>
    by_cases hn : n < 0
    · exact ⟨'-', natDigits n.natAbs, by simp [renderVal, intChars, hn],
        by decide, by decide, by decide⟩
    · obtain ⟨d, t, hdt, hd⟩ := natDigits_head n.toNat
      obtain ⟨_, _, _, _, _, _, _, h1, h2, _, _, h3⟩ := digit_facts d hd
      exact ⟨d, t, by simp [renderVal, intChars, hn, hdt], h3, h1, h2⟩
  | str s =>
    exact ⟨'"', escapeChars s.data ++ ['"'], by simp [renderVal], by decide, by decide, by decide⟩
  | arr xs => cases xs with
    | nil => exact ⟨'[', [']'], by simp [renderVal], by decide, by decide, by decide⟩
    | cons x t =>
      exact ⟨'[', '\n' :: renderArrItems (ind + 2) x t ++ '\n' :: (spacesC ind ++ [']']),
        by simp [renderVal], by decide, by decide, by decide⟩
  | obj fs => cases fs with
    | nil => exact ⟨'\x7b', ['\x7d'], by simp [renderVal], by decide, by decide, by decide⟩
    | cons f t =>
      exact ⟨'\x7b', '\n' :: renderObjItems (ind + 2) f t ++ '\n' :: (spacesC ind ++ ['\x7d']),
        by simp [renderVal], by decide, by decide, by decide⟩

theorem parseF_val_skipWs (f : Nat) (cs : List Char) :
    parseF f PMode.val (skipWs cs) = parseF f PMode.val cs := by
  cases f with
  | zero => rfl
  | succ f => simp only [parseF, skipWs_idem]

theorem parseF_arritems_skipWs (f : Nat) (cs : List Char) :
    parseF f PMode.arritems (skipWs cs) = parseF f PMode.arritems cs := by
  cases f with
  | zero => rfl
  | succ f => simp only [parseF, parseF_val_skipWs]

theorem parseF_objfields_skipWs (f : Nat) (cs : List Char) :
    parseF f PMode.objfields (skipWs cs) = parseF f PMode.objfields cs := by
  cases f with
  | zero => rfl
  | succ f => simp only [parseF, skipWs_idem]

theorem valFuel_pos (j : Json) : 1 ≤ valFuel j := by
  cases j with
  | arr xs => cases xs <;> simp [valFuel]
  | obj fs => cases fs <;> simp [valFuel]
  | _ => simp [valFuel]

theorem itemsFuel_ge (x : Json) (xs : List Json) : 1 + valFuel x ≤ itemsFuel x xs := by
  cases xs <;> simp [itemsFuel]

theorem fieldsFuel_ge (p : String × Json) (fs : List (String × Json)) :
    1 + valFuel p.2 ≤ fieldsFuel p fs := by
  obtain ⟨k, v⟩ := p
  cases fs <;> simp [fieldsFuel]

theorem renderArrItems_shape (ind : Nat) (x : Json) (xs : List Json) :
    ∃ T, renderArrItems ind x xs = spacesC ind ++ renderVal ind x ++ T := by
  rw [renderArrItems.eq_def]
  cases xs with
  | nil => exact ⟨[], by simp⟩
  | cons y ys => exact ⟨',' :: '\n' :: renderArrItems ind y ys, by simp⟩

theorem renderObjItems_shape (ind : Nat) (k : String) (v : Json) (fs : List (String × Json)) :
    ∃ T, renderObjItems ind (k, v) fs =
      spacesC ind ++ '"' :: (escapeChars k.data ++ '"' :: ':' :: ' ' :: (renderVal ind v ++ T)) := by
  rw [renderObjItems.eq_def]
  cases fs with
  | nil => exact ⟨[], by simp⟩
  | cons g gs => exact ⟨',' :: '\n' :: renderObjItems ind g gs, by simp⟩

theorem skipWs_arr_shape (ind : Nat) (x : Json) (xs : List Json) (pre tail : List Char)
    (hpre : allWsC pre) :
    ∃ d ds, skipWs (pre ++ renderArrItems ind x xs ++ tail) = d :: ds ∧
      isWsC d = false ∧ d ≠ ']' ∧ d ≠ '\x7d' := by
  obtain ⟨T, hT⟩ := renderArrItems_shape ind x xs
  obtain ⟨c0, t0, hc0, hws0, hb1, hb2⟩ := renderVal_head ind x
  refine ⟨c0, t0 ++ (T ++ tail), ?_, hws0, hb1, hb2⟩
  rw [hT, hc0]
  rw [show pre ++ (spacesC ind ++ c0 :: t0 ++ T) ++ tail =
      (pre ++ spacesC ind) ++ c0 :: (t0 ++ (T ++ tail)) by simp]
  exact skipWs_ws_cons _ c0 _ (allWsC_append _ _ hpre (allWsC_spaces ind)) hws0

theorem skipWs_obj_head (ind : Nat) (k : String) (v : Json) (fs : List (String × Json))
    (pre tail : List Char) (hpre : allWsC pre) :
    ∃ ds, skipWs (pre ++ renderObjItems ind (k, v) fs ++ tail) = '"' :: ds := by
  obtain ⟨T, hT⟩ := renderObjItems_shape ind k v fs
  refine ⟨escapeChars k.data ++ '"' :: ':' :: ' ' :: (renderVal ind v ++ T) ++ tail, ?_⟩
  rw [hT]
  rw [show pre ++ (spacesC ind ++ '"' :: (escapeChars k.data ++ '"' :: ':' :: ' ' ::
        (renderVal ind v ++ T))) ++ tail =
      (pre ++ spacesC ind) ++ '"' :: (escapeChars k.data ++ '"' :: ':' :: ' ' ::
        (renderVal ind v ++ T) ++ tail) by simp]
  exact skipWs_ws_cons _ '"' _ (allWsC_append _ _ hpre (allWsC_spaces ind)) (by decide)

theorem parseF_render_val (f : Nat) (pa : PaStmt f) (po : PoStmt f) : PvStmt (f + 1) := by
  intro j ind ws rest hvalid hfuel hws hnd
  cases j with
  | null =>
    have hsk : skipWs (ws ++ renderVal ind Json.null ++ rest) = 'n' :: (['u', 'l', 'l'] ++ rest) := by
      rw [List.append_assoc]
      simp only [renderVal]
      rw [show (['n', 'u', 'l', 'l'] : List Char) ++ rest = 'n' :: (['u', 'l', 'l'] ++ rest) by simp]
      exact skipWs_ws_cons ws 'n' _ hws (by decide)
    rw [parseF.eq_def]
    simp only [hsk]
    simp [expectChars]
  | bool b =>
    cases b with
    | true =>
      have hsk : skipWs (ws ++ renderVal ind (Json.bool true) ++ rest) =
          't' :: (['r', 'u', 'e'] ++ rest) := by
        rw [List.append_assoc]
        simp only [renderVal]
        rw [show (['t', 'r', 'u', 'e'] : List Char) ++ rest =
          't' :: (['r', 'u', 'e'] ++ rest) by simp]
        exact skipWs_ws_cons ws 't' _ hws (by decide)
      rw [parseF.eq_def]
      simp only [hsk]
      simp [expectChars]
    | false =>
      have hsk : skipWs (ws ++ renderVal ind (Json.bool false) ++ rest) =
          'f' :: (['a', 'l', 's', 'e'] ++ rest) := by
        rw [List.append_assoc]
        simp only [renderVal]
        rw [show (['f', 'a', 'l', 's', 'e'] : List Char) ++ rest =
          'f' :: (['a', 'l', 's', 'e'] ++ rest) by simp]
        exact skipWs_ws_cons ws 'f' _ hws (by decide)
      rw [parseF.eq_def]
      simp only [hsk]
      simp [expectChars]
  | str s =>
    have hval : ∀ c ∈ s.data, validCh c := by
      rw [← validStrB_iff]
      simpa [validJson] using hvalid
    have hesc : escapeChars s.data = s.data := escapeChars_eq s.data hval
    have hsk : skipWs (ws ++ renderVal ind (Json.str s) ++ rest) =
        '"' :: (s.data ++ '"' :: rest) := by
      rw [List.append_assoc]
      simp only [renderVal, hesc]
      rw [show ('"' :: s.data ++ ['"']) ++ rest = '"' :: (s.data ++ '"' :: rest) by simp]
      exact skipWs_ws_cons ws '"' _ hws (by decide)
    rw [parseF.eq_def]
    simp only [hsk]
    simp [parseStrBody_append s.data rest hval, str_mk_data]
  | int n =>
    by_cases hn : n < 0
    · obtain ⟨d, t, hdt, hd⟩ := natDigits_head n.natAbs
      have hsk : skipWs (ws ++ renderVal ind (Json.int n) ++ rest) =
          '-' :: (natDigits n.natAbs ++ rest) := by
        rw [List.append_assoc]
        simp only [renderVal, intChars, hn, if_true]
        rw [show ('-' :: natDigits n.natAbs) ++ rest = '-' :: (natDigits n.natAbs ++ rest) by simp]
        exact skipWs_ws_cons ws '-' _ hws (by decide)
      have hp : parseDigits 0 (d :: (t ++ rest)) = (n.natAbs, rest) := by
        rw [show d :: (t ++ rest) = natDigits n.natAbs ++ rest by simp [hdt]]
        exact parseDigits_natDigits _ _ hnd
      rw [parseF.eq_def]
      simp only [hsk, hdt, List.cons_append]
      simp [hd, hp]
      rw [abs_of_neg hn, neg_neg]
    · obtain ⟨d, t, hdt, hd⟩ := natDigits_head n.toNat
      obtain ⟨hd1, hd2, hd3, hd4, hd5, _, _, _, _, _, _, hdws⟩ := digit_facts d hd
      have hsk : skipWs (ws ++ renderVal ind (Json.int n) ++ rest) = d :: (t ++ rest) := by
        rw [List.append_assoc]
        simp only [renderVal, intChars, hn, if_false, hdt]
        rw [show (d :: t) ++ rest = d :: (t ++ rest) by simp]
        exact skipWs_ws_cons ws d _ hws hdws
      have hp : parseDigits 0 (d :: (t ++ rest)) = (n.toNat, rest) := by
        rw [show d :: (t ++ rest) = natDigits n.toNat ++ rest by simp [hdt]]
        exact parseDigits_natDigits _ _ hnd
      rw [parseF.eq_def]
      simp only [hsk]
      simp [hd1, hd2, hd3, hd4, hd5, hd, hp]
      omega
  | arr xs =>
    cases xs with
    | nil =>
      have hsk : skipWs (ws ++ renderVal ind (Json.arr []) ++ rest) = '[' :: (']' :: rest) := by
        rw [List.append_assoc]
        simp only [renderVal]
        rw [show (['[', ']'] : List Char) ++ rest = '[' :: (']' :: rest) by simp]
        exact skipWs_ws_cons ws '[' _ hws (by decide)
      rw [parseF.eq_def]
      simp only [hsk]
      simp [skipWs_cons_not (']') rest (by decide), (by decide : isDigitC '[' = false)]
    | cons x xs =>
      have hvx : validJson x = true ∧ validList xs = true := by
        have := hvalid
        simp [validJson, validList] at this
        exact this
      have hfx : itemsFuel x xs ≤ f := by
        simp only [valFuel] at hfuel
        omega
      have hsk : skipWs (ws ++ renderVal ind (Json.arr (x :: xs)) ++ rest) =
          '[' :: (['\n'] ++ renderArrItems (ind + 2) x xs ++
            (('\n' :: spacesC ind) ++ ']' :: rest)) := by
        rw [List.append_assoc]
        simp only [renderVal]
        rw [show ('[' :: '\n' :: renderArrItems (ind + 2) x xs ++
            '\n' :: (spacesC ind ++ [']'])) ++ rest =
            '[' :: (['\n'] ++ renderArrItems (ind + 2) x xs ++
              (('\n' :: spacesC ind) ++ ']' :: rest)) by simp]
        exact skipWs_ws_cons ws '[' _ hws (by decide)
      obtain ⟨d, ds, hdds, _, hdb, _⟩ := skipWs_arr_shape (ind + 2) x xs ['\n']
        (('\n' :: spacesC ind) ++ ']' :: rest)
        (by intro c hc; simp at hc; subst hc; decide)
      have hpa : parseF f PMode.arritems (d :: ds) = some (PRes.items (x :: xs), rest) := by
        rw [← hdds, parseF_arritems_skipWs]
        exact pa x xs (ind + 2) ['\n'] ('\n' :: spacesC ind) rest hvx.1 hvx.2 hfx
          (by intro c hc; simp at hc; subst hc; decide)
          (allWsC_cons '\n' _ (by decide) (allWsC_spaces ind))
      simp only [List.cons_append, List.nil_append, List.append_assoc] at hdds
      rw [parseF.eq_def]
      simp only [hsk]
      simp [hdds, hdb, hpa, (by decide : isDigitC '[' = false)]
  | obj fs =>
    cases fs with
    | nil =>
      have hsk : skipWs (ws ++ renderVal ind (Json.obj []) ++ rest) =
          '\x7b' :: ('\x7d' :: rest) := by
        rw [List.append_assoc]
        simp only [renderVal]
        rw [show (['\x7b', '\x7d'] : List Char) ++ rest = '\x7b' :: ('\x7d' :: rest) by simp]
        exact skipWs_ws_cons ws '\x7b' _ hws (by decide)
      rw [parseF.eq_def]
      simp only [hsk]
      simp [skipWs_cons_not ('\x7d') rest (by decide), (by decide : isDigitC '\x7b' = false)]
    | cons f0 fs =>
      obtain ⟨k, v⟩ := f0
      have hvf : validStrB k = true ∧ validJson v = true ∧ validFields fs = true := by
        have := hvalid
        simp [validJson, validFields] at this
        tauto
      have hff : fieldsFuel (k, v) fs ≤ f := by
        simp only [valFuel] at hfuel
        omega
      have hsk : skipWs (ws ++ renderVal ind (Json.obj ((k, v) :: fs)) ++ rest) =
          '\x7b' :: (['\n'] ++ renderObjItems (ind + 2) (k, v) fs ++
            (('\n' :: spacesC ind) ++ '\x7d' :: rest)) := by
        rw [List.append_assoc]
        simp only [renderVal]
        rw [show ('\x7b' :: '\n' :: renderObjItems (ind + 2) (k, v) fs ++
            '\n' :: (spacesC ind ++ ['\x7d'])) ++ rest =
            '\x7b' :: (['\n'] ++ renderObjItems (ind + 2) (k, v) fs ++
              (('\n' :: spacesC ind) ++ '\x7d' :: rest)) by simp]
        exact skipWs_ws_cons ws '\x7b' _ hws (by decide)
      obtain ⟨ds, hdds⟩ := skipWs_obj_head (ind + 2) k v fs ['\n']
        (('\n' :: spacesC ind) ++ '\x7d' :: rest)
        (by intro c hc; simp at hc; subst hc; decide)
      have hpo : parseF f PMode.objfields ('"' :: ds) =
          some (PRes.fields ((k, v) :: fs), rest) := by
        rw [← hdds, parseF_objfields_skipWs]
        exact po k v fs (ind + 2) ['\n'] ('\n' :: spacesC ind) rest hvf.1 hvf.2.1 hvf.2.2 hff
          (by intro c hc; simp at hc; subst hc; decide)
          (allWsC_cons '\n' _ (by decide) (allWsC_spaces ind))
      simp only [List.cons_append, List.nil_append, List.append_assoc] at hdds
      rw [parseF.eq_def]
      simp only [hsk]
      simp [hdds, hpo, (by decide : isDigitC '\x7b' = false)]

theorem parseF_render_items (f : Nat) (pv : PvStmt f) (pa : PaStmt f) : PaStmt (f + 1) := by
  intro x xs ind ws1 ws2 rest hvx hvxs hfuel hws1 hws2
  cases xs with
  | nil =>
    have hfv : valFuel x ≤ f := by
      simp only [itemsFuel] at hfuel
      omega
    have hval : parseF f PMode.val (ws1 ++ renderArrItems ind x [] ++ (ws2 ++ ']' :: rest)) =
        some (PRes.v x, ws2 ++ ']' :: rest) := by
      rw [show ws1 ++ renderArrItems ind x [] ++ (ws2 ++ ']' :: rest) =
          (ws1 ++ spacesC ind) ++ renderVal ind x ++ (ws2 ++ ']' :: rest) by
        rw [renderArrItems.eq_def]
        simp]
      exact pv x ind (ws1 ++ spacesC ind) (ws2 ++ ']' :: rest) hvx hfv
        (allWsC_append _ _ hws1 (allWsC_spaces ind))
        (noDigitHead_ws_cons ws2 ']' rest hws2 (by decide))
    have hskw : skipWs (ws2 ++ ']' :: rest) = ']' :: rest :=
      skipWs_ws_cons ws2 ']' rest hws2 (by decide)
    rw [parseF.eq_def]
    simp only [hval]
    simp [hskw]
  | cons y ys =>
    obtain ⟨hvy, hvys⟩ : validJson y = true ∧ validList ys = true := by
      simp [validList] at hvxs
      exact hvxs
    have hfv : valFuel x ≤ f := by
      simp only [itemsFuel] at hfuel
      have h1 := itemsFuel_ge y ys
      omega
    have hfy : itemsFuel y ys ≤ f := by
      simp only [itemsFuel] at hfuel
      have h1 := valFuel_pos x
      omega
    have hval : parseF f PMode.val (ws1 ++ renderArrItems ind x (y :: ys) ++ (ws2 ++ ']' :: rest)) =
        some (PRes.v x, ',' :: ('\n' :: (renderArrItems ind y ys ++ (ws2 ++ ']' :: rest)))) := by
      rw [show ws1 ++ renderArrItems ind x (y :: ys) ++ (ws2 ++ ']' :: rest) =
          (ws1 ++ spacesC ind) ++ renderVal ind x ++
            (',' :: ('\n' :: (renderArrItems ind y ys ++ (ws2 ++ ']' :: rest)))) by
        rw [renderArrItems.eq_def]
        simp]
      exact pv x ind (ws1 ++ spacesC ind) _ hvx hfv
        (allWsC_append _ _ hws1 (allWsC_spaces ind)) (noDigitHead_cons _ _ (by decide))
    have hrec : parseF f PMode.arritems ('\n' :: (renderArrItems ind y ys ++ (ws2 ++ ']' :: rest))) =
        some (PRes.items (y :: ys), rest) := by
      rw [show ('\n' :: (renderArrItems ind y ys ++ (ws2 ++ ']' :: rest)) : List Char) =
          ['\n'] ++ renderArrItems ind y ys ++ (ws2 ++ ']' :: rest) by simp]
      exact pa y ys ind ['\n'] ws2 rest hvy hvys hfy
        (by intro c hc; simp at hc; subst hc; decide) hws2
    rw [parseF.eq_def]
    simp only [hval]
    simp [skipWs_cons_not ',' _ (by decide), hrec]

theorem parseF_render_fields (f : Nat) (pv : PvStmt f) (po : PoStmt f) : PoStmt (f + 1) := by
  intro k v fs ind ws1 ws2 rest hvk hvv hvfs hfuel hws1 hws2
  have hkch : ∀ c ∈ k.data, validCh c := (validStrB_iff k).mp hvk
  have hesc : escapeChars k.data = k.data := escapeChars_eq _ hkch
  cases fs with
  | nil =>
    have hfv : valFuel v ≤ f := by
      simp only [fieldsFuel] at hfuel
      omega
    have hsk : skipWs (ws1 ++ renderObjItems ind (k, v) [] ++ (ws2 ++ '\x7d' :: rest)) =
        '"' :: (k.data ++ '"' :: (':' :: (' ' :: (renderVal ind v ++ (ws2 ++ '\x7d' :: rest))))) := by
      rw [show ws1 ++ renderObjItems ind (k, v) [] ++ (ws2 ++ '\x7d' :: rest) =
          (ws1 ++ spacesC ind) ++ '"' ::
            (k.data ++ '"' :: (':' :: (' ' :: (renderVal ind v ++ (ws2 ++ '\x7d' :: rest))))) by
        rw [renderObjItems.eq_def]
        simp [hesc]]
      exact skipWs_ws_cons _ '"' _ (allWsC_append _ _ hws1 (allWsC_spaces ind)) (by decide)
    have hstr : parseStrBody (k.data ++ '"' ::
        (':' :: (' ' :: (renderVal ind v ++ (ws2 ++ '\x7d' :: rest))))) =
        some (k.data, ':' :: (' ' :: (renderVal ind v ++ (ws2 ++ '\x7d' :: rest)))) :=
      parseStrBody_append k.data _ hkch
    have hval : parseF f PMode.val (' ' :: (renderVal ind v ++ (ws2 ++ '\x7d' :: rest))) =
        some (PRes.v v, ws2 ++ '\x7d' :: rest) := by
      rw [show (' ' :: (renderVal ind v ++ (ws2 ++ '\x7d' :: rest)) : List Char) =
          [' '] ++ renderVal ind v ++ (ws2 ++ '\x7d' :: rest) by simp]
      exact pv v ind [' '] _ hvv hfv (by intro c hc; simp at hc; subst hc; decide)
        (noDigitHead_ws_cons ws2 '\x7d' rest hws2 (by decide))
    have hskw : skipWs (ws2 ++ '\x7d' :: rest) = '\x7d' :: rest :=
      skipWs_ws_cons ws2 '\x7d' rest hws2 (by decide)
    rw [parseF.eq_def]
    simp only [hsk]
    simp [hstr, skipWs_cons_not ':' _ (by decide), hval, hskw, str_mk_data]
  | cons g gs =>
    obtain ⟨k2, v2⟩ := g
    obtain ⟨hvk2, hvv2, hvgs⟩ : validStrB k2 = true ∧ validJson v2 = true ∧
        validFields gs = true := by
      simp [validFields] at hvfs
      tauto
    have hfv : valFuel v ≤ f := by
      simp only [fieldsFuel] at hfuel
      have h1 := fieldsFuel_ge (k2, v2) gs
      have h2 := valFuel_pos v2
      omega
    have hfg : fieldsFuel (k2, v2) gs ≤ f := by
      simp only [fieldsFuel] at hfuel
      have h1 := valFuel_pos v
      omega
    have hsk : skipWs (ws1 ++ renderObjItems ind (k, v) ((k2, v2) :: gs) ++
        (ws2 ++ '\x7d' :: rest)) =
        '"' :: (k.data ++ '"' :: (':' :: (' ' :: (renderVal ind v ++
          (',' :: ('\n' :: (renderObjItems ind (k2, v2) gs ++ (ws2 ++ '\x7d' :: rest)))))))) := by
      rw [show ws1 ++ renderObjItems ind (k, v) ((k2, v2) :: gs) ++ (ws2 ++ '\x7d' :: rest) =
          (ws1 ++ spacesC ind) ++ '"' ::
            (k.data ++ '"' :: (':' :: (' ' :: (renderVal ind v ++
              (',' :: ('\n' :: (renderObjItems ind (k2, v2) gs ++ (ws2 ++ '\x7d' :: rest)))))))) by
        rw [renderObjItems.eq_def]
        simp [hesc]]
      exact skipWs_ws_cons _ '"' _ (allWsC_append _ _ hws1 (allWsC_spaces ind)) (by decide)
    have hstr : parseStrBody (k.data ++ '"' :: (':' :: (' ' :: (renderVal ind v ++
        (',' :: ('\n' :: (renderObjItems ind (k2, v2) gs ++ (ws2 ++ '\x7d' :: rest)))))))) =
        some (k.data, ':' :: (' ' :: (renderVal ind v ++
          (',' :: ('\n' :: (renderObjItems ind (k2, v2) gs ++ (ws2 ++ '\x7d' :: rest))))))) :=
      parseStrBody_append k.data _ hkch
    have hval : parseF f PMode.val (' ' :: (renderVal ind v ++
        (',' :: ('\n' :: (renderObjItems ind (k2, v2) gs ++ (ws2 ++ '\x7d' :: rest)))))) =
        some (PRes.v v, ',' :: ('\n' :: (renderObjItems ind (k2, v2) gs ++
          (ws2 ++ '\x7d' :: rest)))) := by
      rw [show (' ' :: (renderVal ind v ++ (',' :: ('\n' :: (renderObjItems ind (k2, v2) gs ++
          (ws2 ++ '\x7d' :: rest))))) : List Char) =
          [' '] ++ renderVal ind v ++ (',' :: ('\n' :: (renderObjItems ind (k2, v2) gs ++
            (ws2 ++ '\x7d' :: rest)))) by simp]
      exact pv v ind [' '] _ hvv hfv (by intro c hc; simp at hc; subst hc; decide)
        (noDigitHead_cons _ _ (by decide))
    have hrec : parseF f PMode.objfields ('\n' :: (renderObjItems ind (k2, v2) gs ++
        (ws2 ++ '\x7d' :: rest))) = some (PRes.fields ((k2, v2) :: gs), rest) := by
      rw [show ('\n' :: (renderObjItems ind (k2, v2) gs ++ (ws2 ++ '\x7d' :: rest)) : List Char) =
          ['\n'] ++ renderObjItems ind (k2, v2) gs ++ (ws2 ++ '\x7d' :: rest) by simp]
      exact po k2 v2 gs ind ['\n'] ws2 rest hvk2 hvv2 hvgs hfg
        (by intro c hc; simp at hc; subst hc; decide) hws2
    rw [parseF.eq_def]
    simp only [hsk]
    simp [hstr, skipWs_cons_not ':' _ (by decide), hval,
      skipWs_cons_not ',' _ (by decide), hrec, str_mk_data]

theorem parseF_render : ∀ f : Nat, PvStmt f ∧ PaStmt f ∧ PoStmt f := by
  intro f
  induction f with
  | zero =>
    refine ⟨?_, ?_, ?_⟩
    · intro j ind ws rest _ hf _ _
      exact absurd hf (by have := valFuel_pos j; omega)
    · intro x xs ind ws1 ws2 rest _ _ hf _ _
      exact absurd hf (by have h1 := itemsFuel_ge x xs; have h2 := valFuel_pos x; omega)
    · intro k v fs ind ws1 ws2 rest _ _ _ hf _ _
      exact absurd hf (by have h1 := fieldsFuel_ge (k, v) fs; have h2 := valFuel_pos v; omega)
  | succ f ih =>
    exact ⟨parseF_render_val f ih.2.1 ih.2.2, parseF_render_items f ih.1 ih.2.1,
      parseF_render_fields f ih.1 ih.2.2⟩

/-- The parser fuel needed by a value never exceeds its rendered length. -/
theorem fuelBound : ∀ k : Nat,
    (∀ (j : Json) (ind : Nat), valFuel j ≤ k → valFuel j ≤ (renderVal ind j).length) ∧
    (∀ (x : Json) (xs : List Json) (ind : Nat), itemsFuel x xs ≤ k →
      itemsFuel x xs ≤ (renderArrItems ind x xs).length + 1) ∧
    (∀ (p : String × Json) (fs : List (String × Json)) (ind : Nat), fieldsFuel p fs ≤ k →
      fieldsFuel p fs ≤ (renderObjItems ind p fs).length + 1) := by
  intro k
  induction k with
  | zero =>
    refine ⟨?_, ?_, ?_⟩
    · intro j ind hf
      exact absurd hf (by have := valFuel_pos j; omega)
    · intro x xs ind hf
      exact absurd hf (by have h1 := itemsFuel_ge x xs; have h2 := valFuel_pos x; omega)
    · intro p fs ind hf
      exact absurd hf (by have h1 := fieldsFuel_ge p fs; have h2 := valFuel_pos p.2; omega)
  | succ k ih =>
    obtain ⟨ihv, iha, iho⟩ := ih
    refine ⟨?_, ?_, ?_⟩
    · intro j ind hf
      cases j with
      | null => simp [valFuel, renderVal]
      | bool b => cases b <;> simp [valFuel, renderVal]
      | int n =>
        by_cases hn : n < 0
        · obtain ⟨d, t, hdt, _⟩ := natDigits_head n.natAbs
          simp [valFuel, renderVal, intChars, hn, hdt]
        · obtain ⟨d, t, hdt, _⟩ := natDigits_head n.toNat
          simp [valFuel, renderVal, intChars, hn, hdt]
      | str s => simp [valFuel, renderVal]
      | arr xs =>
        cases xs with
        | nil => simp [valFuel, renderVal]
        | cons x t =>
          have hit : itemsFuel x t ≤ k := by
            simp only [valFuel] at hf
            omega
          have := iha x t (ind + 2) hit
          simp only [valFuel, renderVal]
          simp only [List.length_cons, List.length_append, spacesC, List.length_replicate]
          omega
      | obj fs =>
        cases fs with
        | nil => simp [valFuel, renderVal]
        | cons p t =>
          have hit : fieldsFuel p t ≤ k := by
            simp only [valFuel] at hf
            omega
          have := iho p t (ind + 2) hit
          simp only [valFuel, renderVal]
          simp only [List.length_cons, List.length_append, spacesC, List.length_replicate]
          omega
    · intro x xs ind hf
      cases xs with
      | nil =>
        have hvx : valFuel x ≤ k := by
          simp only [itemsFuel] at hf
          omega
        have := ihv x ind hvx
        rw [renderArrItems.eq_def]
        simp only [itemsFuel, List.length_append, spacesC, List.length_replicate]
        omega
      | cons y ys =>
        have hvx : valFuel x ≤ k := by
          simp only [itemsFuel] at hf
          have h1 := itemsFuel_ge y ys
          omega
        have hiy : itemsFuel y ys ≤ k := by
          simp only [itemsFuel] at hf
          have h1 := valFuel_pos x
          omega
        have h2 := ihv x ind hvx
        have h3 := iha y ys ind hiy
        rw [renderArrItems.eq_def]
        simp only [itemsFuel, List.length_append, List.length_cons, spacesC,
          List.length_replicate]
        omega
    · intro p fs ind hf
      obtain ⟨kk, v⟩ := p
      cases fs with
      | nil =>
        have hvv : valFuel v ≤ k := by
          simp only [fieldsFuel] at hf
          omega
        have := ihv v ind hvv
        rw [renderObjItems.eq_def]
        simp only [fieldsFuel, List.length_append, List.length_cons, spacesC,
          List.length_replicate]
        omega
      | cons g gs =>
        have hvv : valFuel v ≤ k := by
          simp only [fieldsFuel] at hf
          have h1 := fieldsFuel_ge g gs
          have h2 := valFuel_pos g.2
          omega
        have hgg : fieldsFuel g gs ≤ k := by
          simp only [fieldsFuel] at hf
          have h1 := valFuel_pos v
          omega
        have h2 := ihv v ind hvv
        have h3 := iho g gs ind hgg
        rw [renderObjItems.eq_def]
        simp only [fieldsFuel, List.length_append, List.length_cons, spacesC,
          List.length_replicate]
        omega

/-- Round trip: json.load recovers exactly the document that
json.dumps(indent=2) serialised, for any escape-free document. -/
theorem parseJson_dumps (j : Json) (h : validJson j = true) : parseJson (dumps j) = some j := by
  have hb : valFuel j ≤ (renderVal 0 j).length + 1 := by
    have := (fuelBound (valFuel j)).1 j 0 le_rfl
    omega
  have hp := (parseF_render ((renderVal 0 j).length + 1)).1 j 0 [] [] h hb allWsC_nil trivial
  rw [List.nil_append, List.append_nil] at hp
  have hdata : (dumps j).data = renderVal 0 j := rfl
  simp [parseJson, hdata, hp, skipWs]

/-! ## Correctness of the sorting model -/

theorem lexLe_total : ∀ a b, lexLe a b = true ∨ lexLe b a = true := by
  intro a
  induction a with
  | nil => intro b; left; rfl
  | cons x as ih =>
    intro b
    cases b with
    | nil => right; rfl
    | cons y bs =>
      by_cases h1 : x.toNat < y.toNat
      · left; simp [lexLe, h1]
      · by_cases h2 : y.toNat < x.toNat
        · right; simp [lexLe, h2]
        · rcases ih bs with h | h
          · left; simp [lexLe, h1, h2, h]
          · right; simp [lexLe, h1, h2, h]

theorem lexLe_trans : ∀ a b c, lexLe a b = true → lexLe b c = true → lexLe a c = true := by
  intro a
  induction a with
  | nil => intro b c _ _; rfl
  | cons x as ih =>
    intro b c hab hbc
    cases b with
    | nil => simp [lexLe] at hab
    | cons y bs =>
      cases c with
      | nil => simp [lexLe] at hbc
      | cons z cs =>
        by_cases hxy : x.toNat < y.toNat
        · by_cases hyz : y.toNat < z.toNat
          · simp [lexLe, show x.toNat < z.toNat by omega]
          · by_cases hzy : z.toNat < y.toNat
            · simp [lexLe, hyz, hzy] at hbc
            · simp [lexLe, show x.toNat < z.toNat by omega]
        · by_cases hyx : y.toNat < x.toNat
          · simp [lexLe, hxy, hyx] at hab
          · simp only [lexLe, if_neg hxy, if_neg hyx] at hab
            by_cases hyz : y.toNat < z.toNat
            · simp [lexLe, show x.toNat < z.toNat by omega]
            · by_cases hzy : z.toNat < y.toNat
              · simp [lexLe, hyz, hzy] at hbc
              · simp only [lexLe, if_neg hyz, if_neg hzy] at hbc
                have hxz1 : ¬ x.toNat < z.toNat := by omega
                have hxz2 : ¬ z.toNat < x.toNat := by omega
                simp only [lexLe, if_neg hxz1, if_neg hxz2]
                exact ih bs cs hab hbc

theorem strLeB_total (a b : String) : strLeB a b = true ∨ strLeB b a = true :=
  lexLe_total a.data b.data

theorem strLeB_trans (a b c : String) (h1 : strLeB a b = true) (h2 : strLeB b c = true) :
    strLeB a c = true :=
  lexLe_trans a.data b.data c.data h1 h2

theorem insortStr_perm (x : String) : ∀ l, List.Perm (insortStr x l) (x :: l) := by
  intro l
  induction l with
  | nil => exact List.Perm.refl _
  | cons y ys ih =>
    by_cases h : strLeB x y = true
    · rw [show insortStr x (y :: ys) = x :: y :: ys by simp [insortStr, h]]
    · rw [show insortStr x (y :: ys) = y :: insortStr x ys by simp [insortStr, h]]
      exact ((ih.cons y).trans (List.Perm.swap x y ys))

theorem insortStr_sorted (x : String) : ∀ l, SortedStr l → SortedStr (insortStr x l) := by
  intro l
  induction l with
  | nil => intro _; simp [insortStr, SortedStr]
  | cons y ys ih =>
    intro hs
    rw [SortedStr, List.pairwise_cons] at hs
    obtain ⟨hy, hys⟩ := hs
    by_cases h : strLeB x y = true
    · rw [SortedStr, show insortStr x (y :: ys) = x :: y :: ys by simp [insortStr, h],
        List.pairwise_cons]
      refine ⟨?_, ?_⟩
      · intro z hz
        rcases List.mem_cons.mp hz with hz | hz
        · rw [hz]; exact h
        · exact strLeB_trans x y z h (hy z hz)
      · rw [List.pairwise_cons]
        exact ⟨hy, hys⟩
    · have hyx : strLeB y x = true := by
        rcases strLeB_total x y with h2 | h2
        · exact absurd h2 h
        · exact h2
      rw [SortedStr, show insortStr x (y :: ys) = y :: insortStr x ys by simp [insortStr, h],
        List.pairwise_cons]
      refine ⟨?_, ?_⟩
      · intro z hz
        have hz2 : z ∈ x :: ys := (insortStr_perm x ys).mem_iff.mp hz
        rcases List.mem_cons.mp hz2 with hz2 | hz2
        · rw [hz2]; exact hyx
        · exact hy z hz2
      · exact ih hys

theorem pysort_perm (l : List String) : List.Perm (pysort l) l := by
  induction l with
  | nil => exact List.Perm.refl _
  | cons x xs ih =>
    simp only [pysort, List.foldr_cons]
    exact (insortStr_perm x _).trans (ih.cons x)

theorem pysort_sorted (l : List String) : SortedStr (pysort l) := by
  induction l with
  | nil => simp [pysort, SortedStr]
  | cons x xs ih => exact insortStr_sorted x _ ih

/-! ## Shared facts about configuration load and save -/

theorem valid_default (sid : String) (h : validStrB sid = true) :
    validJson (default_config sid) = true := by
  simp [default_config, validJson, validFields, h]
  try decide

/-- Computation of load_config from the stored blob and its parse. -/
theorem load_config_parsed (st : Store) (sid content : String) (j : Json)
    (hf : ("/" ++ sid ++ "/config.json") ∉ st.failPaths)
    (hlk : st.files.lookup ("/" ++ sid ++ "/config.json") = some content)
    (hp : parseJson content = some j) :
    load_config st sid = (some j, "/" ++ sid ++ "/config.json") := by
  simp only [load_config, download]
  rw [if_neg hf, hlk]
  show (match parseJson content with
      | some j => (some j, "/" ++ sid ++ "/config.json")
      | none => (none, "/" ++ sid ++ "/config.json")) =
    (some j, "/" ++ sid ++ "/config.json")
  rw [hp]

/-- Creating the default config then loading it gives back exactly the
default document. -/
theorem load_after_create (st : Store) (sid : String) (hv : validStrB sid = true)
    (hf : ("/" ++ sid ++ "/config.json") ∉ st.failPaths) :
    create_default_config st sid =
      .ok ({ st with
              files := ("/" ++ sid ++ "/config.json", dumps (default_config sid)) :: st.files },
        default_config sid, "/" ++ sid ++ "/config.json") ∧
    load_config
        { st with
          files := ("/" ++ sid ++ "/config.json", dumps (default_config sid)) :: st.files }
        sid =
      (some (default_config sid), "/" ++ sid ++ "/config.json") := by
  constructor
  · simp [create_default_config, save_config, upload, hf]
  · exact load_config_parsed _ sid (dumps (default_config sid)) (default_config sid) hf
      (by simp [List.lookup]) (parseJson_dumps (default_config sid) (valid_default sid hv))

/-- C1: for every station, the reconciled display status follows the
five-rule precedence table: station_enabled false yields Disabled
regardless of assigned_server; otherwise an absent or "Unassigned"
assigned_server yields Unassigned; otherwise an assigned_server not among
the online server ids yields Offline (server missing); otherwise a station
name listed in the assigned server's active_stations yields Online; and
otherwise Syncing. -/
theorem c1_reconcile_precedence (cfg : StationView) (fleet : List ServerHealth) :
    (cfg.station_enabled = false → reconcileStatus cfg fleet = DisplayStatus.Disabled) ∧
    (cfg.station_enabled = true →
      cfg.assigned_server = none ∨ cfg.assigned_server = some "Unassigned" →
      reconcileStatus cfg fleet = DisplayStatus.Unassigned) ∧
    (∀ srv, cfg.station_enabled = true → cfg.assigned_server = some srv →
      srv ≠ "Unassigned" → (∀ r ∈ fleet, r.server_id ≠ srv) →
      reconcileStatus cfg fleet = DisplayStatus.OfflineServerMissing) ∧
    (∀ srv r, cfg.station_enabled = true → cfg.assigned_server = some srv →
      srv ≠ "Unassigned" → fleet.find? (fun h => h.server_id == srv) = some r →
      cfg.station_id ∈ r.active_stations →
      reconcileStatus cfg fleet = DisplayStatus.Online) ∧
    (∀ srv r, cfg.station_enabled = true → cfg.assigned_server = some srv →
      srv ≠ "Unassigned" → fleet.find? (fun h => h.server_id == srv) = some r →
      cfg.station_id ∉ r.active_stations →
      reconcileStatus cfg fleet = DisplayStatus.Syncing) := by
  refine ⟨?_, ?_, ?_, ?_, ?_⟩
  · intro h
    simp [reconcileStatus, h]
  · intro he has
    rcases has with h | h <;> simp [reconcileStatus, he, h]
  · intro srv he has hne hnotin
    have hfind : fleet.find? (fun h => h.server_id == srv) = none := by
      rw [List.find?_eq_none]
      intro r hr
      simp [hnotin r hr]
    simp [reconcileStatus, he, has, hne, hfind]
  · intro srv r he has hne hfind hmem
    simp [reconcileStatus, he, has, hne, hfind, hmem]
  · intro srv r he has hne hfind hmem
    simp [reconcileStatus, he, has, hne, hfind, hmem]

/-- C1 witness: the five rules at concrete stations against a fleet with
one online server S1 whose active_stations is ["A"]. -/
theorem c1_witness :
    reconcileStatus ⟨"A", false, some "S1"⟩ c1Fleet = DisplayStatus.Disabled ∧
    reconcileStatus ⟨"A", true, some "Unassigned"⟩ c1Fleet = DisplayStatus.Unassigned ∧
    reconcileStatus ⟨"A", true, none⟩ c1Fleet = DisplayStatus.Unassigned ∧
    reconcileStatus ⟨"A", true, some "S9"⟩ c1Fleet = DisplayStatus.OfflineServerMissing ∧
    reconcileStatus ⟨"A", true, some "S1"⟩ c1Fleet = DisplayStatus.Online ∧
    reconcileStatus ⟨"B", true, some "S1"⟩ c1Fleet = DisplayStatus.Syncing :=
  ⟨(c1_reconcile_precedence _ _).1 rfl,
   (c1_reconcile_precedence _ _).2.1 rfl (Or.inr rfl),
   (c1_reconcile_precedence _ _).2.1 rfl (Or.inl rfl),
   (c1_reconcile_precedence _ _).2.2.1 "S9" rfl rfl (by decide)
     (by intro r hr; simp [c1Fleet] at hr; subst hr; decide),
   (c1_reconcile_precedence _ _).2.2.2.1 "S1" ⟨"S1", "OK", ["A"], []⟩ rfl rfl (by decide) rfl
     (by decide),
   (c1_reconcile_precedence _ _).2.2.2.2 "S1" ⟨"S1", "OK", ["A"], []⟩ rfl rfl (by decide) rfl
     (by decide)⟩

/-- C2 (amended): for every station id with representable characters,
createDefault then load returns the default document, whose
station_enabled is true, whose server-assignment field is named server_id
(not assigned_server) and equals "Unassigned", and whose settings hold the
default values; the document has no assigned_server field at all. -/
theorem c2_default_config_content (st : Store) (sid : String) (hv : validStrB sid = true)
    (hf : ("/" ++ sid ++ "/config.json") ∉ st.failPaths) :
    ∃ st2, create_default_config st sid =
        .ok (st2, default_config sid, "/" ++ sid ++ "/config.json") ∧
      (load_config st2 sid).1 = some (default_config sid) ∧
      objGet (default_config sid) "station_enabled" = some (Json.bool true) ∧
      objGet (default_config sid) "server_id" = some (Json.str "Unassigned") ∧
      objGet (default_config sid) "settings" = some (Json.obj
        [("remove_background", Json.bool false), ("remove_bg_api_key", Json.str ""),
         ("orientation_mode", Json.str "auto"), ("temperature", Json.int 0)]) ∧
      objGet (default_config sid) "assigned_server" = none := by
  obtain ⟨h1, h2⟩ := load_after_create st sid hv hf
  exact ⟨_, h1, by rw [h2], rfl, rfl, rfl, rfl⟩

/-- C2 counterexample: after createDefault("HP9") and load("HP9") the
returned document carries the assignment under the key server_id; it has
no assigned_server field, so its assigned_server does not equal
"Unassigned" as the claim states. -/
theorem c2_counterexample :
    create_default_config c2Store "HP9" =
      .ok ({ c2Store with
              files := ("/" ++ "HP9" ++ "/config.json", dumps (default_config "HP9")) ::
                c2Store.files },
        default_config "HP9", "/" ++ "HP9" ++ "/config.json") ∧
    (load_config
        { c2Store with
          files := ("/" ++ "HP9" ++ "/config.json", dumps (default_config "HP9")) ::
            c2Store.files }
        "HP9").1 = some (default_config "HP9") ∧
    objGet (default_config "HP9") "assigned_server" = none ∧
    ¬ objGet (default_config "HP9") "assigned_server" = some (Json.str "Unassigned") ∧
    objGet (default_config "HP9") "server_id" = some (Json.str "Unassigned") := by
  obtain ⟨h1, h2⟩ := load_after_create c2Store "HP9" (by decide) (by simp [c2Store])
  refine ⟨h1, by rw [h2], rfl, ?_, rfl⟩
  rw [show objGet (default_config "HP9") "assigned_server" = none from rfl]
  simp

/-- C2 witness: the amended claim at station id HP9 on an empty store. -/
theorem c2_witness :
    ∃ st2, create_default_config c2Store "HP9" =
        .ok (st2, default_config "HP9", "/" ++ "HP9" ++ "/config.json") ∧
      (load_config st2 "HP9").1 = some (default_config "HP9") ∧
      objGet (default_config "HP9") "station_enabled" = some (Json.bool true) ∧
      objGet (default_config "HP9") "server_id" = some (Json.str "Unassigned") ∧
      objGet (default_config "HP9") "settings" = some (Json.obj
        [("remove_background", Json.bool false), ("remove_bg_api_key", Json.str ""),
         ("orientation_mode", Json.str "auto"), ("temperature", Json.int 0)]) ∧
      objGet (default_config "HP9") "assigned_server" = none :=
  c2_default_config_content c2Store "HP9" (by decide) (by simp [c2Store])

/-- C3 (amended): save_config returns a boolean success value that is
always True on success, but a per-call storage failure during save is not
caught at the call site: the exception propagates to the caller, and no
call ever returns a False success value. -/
theorem c3_save_success_or_raise (st : Store) (cfg : Json) (path : String) :
    (path ∉ st.failPaths →
      save_config st cfg path =
        .ok ({ st with files := (path, dumps cfg) :: st.files }, true)) ∧
    (path ∈ st.failPaths → save_config st cfg path = .error DbxErr.apiFail) ∧
    (∀ st2 : Store, save_config st cfg path ≠ .ok (st2, false)) := by
  refine ⟨?_, ?_, ?_⟩
  · intro h
    simp [save_config, upload, h]
  · intro h
    simp [save_config, upload, h]
  · intro st2 hcontra
    by_cases h : path ∈ st.failPaths
    · simp [save_config, upload, h] at hcontra
    · simp [save_config, upload, h] at hcontra

/-- C3 counterexample: on a store whose upload call fails, save_config
raises (the .error escapes) instead of returning a False success value as
the claim states. -/
theorem c3_counterexample :
    save_config c3Store (default_config "HP1") "/HP1/config.json" =
      .error DbxErr.apiFail := rfl

/-- C3 witness: the amended claim exercised at a succeeding and at a
failing store. -/
theorem c3_witness :
    save_config c2Store (default_config "HP1") "/HP1/config.json" =
      .ok ({ c2Store with
              files := ("/HP1/config.json", dumps (default_config "HP1")) :: c2Store.files },
        true) ∧
    save_config c3Store (default_config "HP1") "/HP1/config.json" = .error DbxErr.apiFail ∧
    ∀ st2 : Store,
      save_config c3Store (default_config "HP1") "/HP1/config.json" ≠ .ok (st2, false) :=
  ⟨(c3_save_success_or_raise c2Store (default_config "HP1") "/HP1/config.json").1
      (by simp [c2Store]),
   (c3_save_success_or_raise c3Store (default_config "HP1") "/HP1/config.json").2.1
      (by simp [c3Store]),
   (c3_save_success_or_raise c3Store (default_config "HP1") "/HP1/config.json").2.2⟩

/-- C4: load_config returns None exactly when the file is missing, the
access fails, or the JSON is malformed, and returns the parsed object
otherwise; the None result is the same in all three failure causes, so
they cannot be told apart. -/
theorem c4_load_none_iff (st : Store) (sid : String) :
    ((load_config st sid).1 = none ↔
      download st ("/" ++ sid ++ "/config.json") = .error DbxErr.notFound ∨
      download st ("/" ++ sid ++ "/config.json") = .error DbxErr.apiFail ∨
      (∃ content, download st ("/" ++ sid ++ "/config.json") = .ok content ∧
        parseJson content = none)) ∧
    (∀ content j, download st ("/" ++ sid ++ "/config.json") = .ok content →
      parseJson content = some j → (load_config st sid).1 = some j) := by
  constructor
  · cases hd : download st ("/" ++ sid ++ "/config.json") with
    | ok content =>
      cases hp : parseJson content with
      | some j => simp [load_config, hd, hp]
      | none =>
        have hnone : (load_config st sid).1 = none := by simp [load_config, hd, hp]
        exact iff_of_true hnone (Or.inr (Or.inr ⟨content, rfl, hp⟩))
    | error e =>
      cases e with
      | apiFail => simp [load_config, hd]
      | notFound => simp [load_config, hd]
  · intro content j hd hp
    simp [load_config, hd, hp]

/-- C4 witness: on an empty store load returns None (missing file); on a
store holding a well-formed document it returns the parsed object. -/
theorem c4_witness :
    (load_config c2Store "HP1").1 = none ∧
    (load_config c4StoreGood "HP1").1 = some (Json.obj []) :=
  ⟨(c4_load_none_iff c2Store "HP1").1.mpr (Or.inl rfl),
   (c4_load_none_iff c4StoreGood "HP1").2 "\x7b\x7d" (Json.obj []) rfl rfl⟩

/-- C5 (amended): for a station whose stored config is in the canonical
form produced by save_config (json.dumps with indent 2), loading and
immediately saving the unchanged result stores back the identical bytes;
for documents stored with other whitespace, save rewrites them into
canonical form (same parsed value, different bytes). -/
theorem c5_canonical_roundtrip (st : Store) (sid : String) (j : Json)
    (hv : validJson j = true)
    (hstore : st.files.lookup ("/" ++ sid ++ "/config.json") = some (dumps j))
    (hf : ("/" ++ sid ++ "/config.json") ∉ st.failPaths) :
    load_config st sid = (some j, "/" ++ sid ++ "/config.json") ∧
    save_config st j ("/" ++ sid ++ "/config.json") =
      .ok ({ st with files := ("/" ++ sid ++ "/config.json", dumps j) :: st.files }, true) ∧
    ({ st with files := ("/" ++ sid ++ "/config.json", dumps j) :: st.files } :
        Store).files.lookup ("/" ++ sid ++ "/config.json") = some (dumps j) := by
  refine ⟨load_config_parsed st sid (dumps j) j hf hstore (parseJson_dumps j hv), ?_, ?_⟩
  · simp [save_config, upload, hf]
  · simp [List.lookup]

/-- C5 counterexample: a stored document reading brace-space-brace parses
to the empty object, yet saving that unchanged object rewrites the file as
the two bytes brace-brace: the stored bytes change although both documents
hold exactly the same (empty) field list, so the difference is not field
order, contradicting the byte-for-byte claim for documents not already in
canonical form. -/
theorem c5_counterexample :
    (load_config c5Store "HP1").1 = some (Json.obj []) ∧
    save_config c5Store (Json.obj []) ("/" ++ "HP1" ++ "/config.json") =
      .ok ({ c5Store with
              files := ("/" ++ "HP1" ++ "/config.json", dumps (Json.obj [])) :: c5Store.files },
        true) ∧
    dumps (Json.obj []) = "\x7b\x7d" ∧
    ("\x7b\x7d" : String) ≠ "\x7b \x7d" ∧
    parseJson "\x7b \x7d" = some (Json.obj []) ∧
    parseJson "\x7b\x7d" = some (Json.obj []) := by
  refine ⟨rfl, ?_, ?_, by decide, rfl, rfl⟩
  · simp [save_config, upload, c5Store]
  · simp only [dumps, renderVal]

/-- C5 witness: the amended round trip at station HP9 whose stored config
is the canonical serialisation of the default document. -/
theorem c5_witness :
    load_config c5WStore "HP9" = (some (default_config "HP9"), "/" ++ "HP9" ++ "/config.json") ∧
    save_config c5WStore (default_config "HP9") ("/" ++ "HP9" ++ "/config.json") =
      .ok ({ c5WStore with
              files := ("/" ++ "HP9" ++ "/config.json", dumps (default_config "HP9")) ::
                c5WStore.files },
        true) ∧
    ({ c5WStore with
        files := ("/" ++ "HP9" ++ "/config.json", dumps (default_config "HP9")) ::
          c5WStore.files } : Store).files.lookup ("/" ++ "HP9" ++ "/config.json") =
      some (dumps (default_config "HP9")) :=
  c5_canonical_roundtrip c5WStore "HP9" (default_config "HP9")
    (valid_default "HP9" (by decide)) (by simp [c5WStore, List.lookup]) (by simp [c5WStore])

/-! ## Claim C6 -/

theorem fleet_foldl_eq (st : Store) (entries : List Entry) : ∀ acc : List Json,
    entries.foldl
      (fun servers entry =>
        if endsWithS entry.name ".json" then
          match download st entry.path_lower with
          | .ok content =>
            match parseJson content with
            | some data => servers ++ [data]
            | none => servers
          | .error _ => servers
        else servers) acc =
    acc ++ (entries.filter (fun e => endsWithS e.name ".json")).filterMap
      (fun e =>
        match download st e.path_lower with
        | .ok content => parseJson content
        | .error _ => none) := by
  induction entries with
  | nil => intro acc; simp
  | cons e t ih =>
    intro acc
    by_cases hp : endsWithS e.name ".json" = true
    · cases hd : download st e.path_lower with
      | ok c =>
        cases hpj : parseJson c with
        | some d => simp [hp, hd, hpj, ih]
        | none => simp [hp, hd, hpj, ih]
      | error er => simp [hp, hd, ih]
    · simp only [Bool.not_eq_true] at hp
      simp [hp, ih]

/-- C6: get_fleet_data lists the health folder, keeps exactly the entries
whose name ends in .json, and returns one record per such entry that
downloads and parses successfully; entries that fail to download or parse
are silently dropped, and a failed folder listing yields the empty
sequence. -/
theorem c6_fleet_best_effort (st : Store) :
    (st.listing HEALTH_FOLDER = none → get_fleet_data st = []) ∧
    (∀ entries, st.listing HEALTH_FOLDER = some entries →
      get_fleet_data st =
        (entries.filter (fun e => endsWithS e.name ".json")).filterMap
          (fun e =>
            match download st e.path_lower with
            | .ok content => parseJson content
            | .error _ => none)) := by
  constructor
  · intro h
    simp [get_fleet_data, h]
  · intro entries h
    simp only [get_fleet_data, h]
    rw [fleet_foldl_eq st entries []]
    simp

/-- C6 witness: a listing with one good record, one non-.json entry, one
entry whose download fails, and one whose parse fails returns exactly the
good record. -/
theorem c6_witness :
    c6Store.listing HEALTH_FOLDER =
      some [⟨"s1.json", "/h/s1.json"⟩, ⟨"notes.txt", "/h/notes.txt"⟩,
            ⟨"s2.json", "/h/s2.json"⟩, ⟨"s3.json", "/h/s3.json"⟩] ∧
    get_fleet_data c6Store = [Json.obj []] := by
  refine ⟨rfl, ?_⟩
  rw [(c6_fleet_best_effort c6Store).2
    [⟨"s1.json", "/h/s1.json"⟩, ⟨"notes.txt", "/h/notes.txt"⟩,
     ⟨"s2.json", "/h/s2.json"⟩, ⟨"s3.json", "/h/s3.json"⟩] rfl]
  rfl

/-- C7: uploading an action writes the blob under the deterministic name
station_Root.atn (root) or station_subfolder.atn (subfolder) inside the
station's actions folder, and additionally writes the sentinel trigger
image into the corresponding incoming folder. -/
theorem c7_upload_action_paths (st : Store) (bytes sid sf : String) :
    (("/" ++ sid ++ "/actions/" ++ (sid ++ "_Root.atn")) ∉ st.failPaths →
     ("/" ++ sid ++ "/incoming/_trigger_reload.jpg") ∉ st.failPaths →
     ("/" ++ sid ++ "/actions/" ++ (sid ++ "_Root.atn")) ≠
       ("/" ++ sid ++ "/incoming/_trigger_reload.jpg") →
      upload_action_to_station st bytes sid "root" none =
        ({ st with files :=
            ("/" ++ sid ++ "/incoming/_trigger_reload.jpg", create_trigger_image) ::
            ("/" ++ sid ++ "/actions/" ++ (sid ++ "_Root.atn"), bytes) :: st.files },
          true, "✅ Uploaded as " ++ (sid ++ "_Root.atn") ++ " and triggered reload!") ∧
      ({ st with files :=
          ("/" ++ sid ++ "/incoming/_trigger_reload.jpg", create_trigger_image) ::
          ("/" ++ sid ++ "/actions/" ++ (sid ++ "_Root.atn"), bytes) :: st.files } :
          Store).files.lookup ("/" ++ sid ++ "/actions/" ++ (sid ++ "_Root.atn")) =
        some bytes ∧
      ({ st with files :=
          ("/" ++ sid ++ "/incoming/_trigger_reload.jpg", create_trigger_image) ::
          ("/" ++ sid ++ "/actions/" ++ (sid ++ "_Root.atn"), bytes) :: st.files } :
          Store).files.lookup ("/" ++ sid ++ "/incoming/_trigger_reload.jpg") =
        some create_trigger_image) ∧
    (("/" ++ sid ++ "/actions/" ++ (sid ++ "_" ++ sf ++ ".atn")) ∉ st.failPaths →
     ("/" ++ sid ++ "/incoming/" ++ sf ++ "/_trigger_reload.jpg") ∉ st.failPaths →
     ("/" ++ sid ++ "/actions/" ++ (sid ++ "_" ++ sf ++ ".atn")) ≠
       ("/" ++ sid ++ "/incoming/" ++ sf ++ "/_trigger_reload.jpg") →
      upload_action_to_station st bytes sid "subfolder" (some sf) =
        ({ st with files :=
            ("/" ++ sid ++ "/incoming/" ++ sf ++ "/_trigger_reload.jpg", create_trigger_image) ::
            ("/" ++ sid ++ "/actions/" ++ (sid ++ "_" ++ sf ++ ".atn"), bytes) :: st.files },
          true, "✅ Uploaded as " ++ (sid ++ "_" ++ sf ++ ".atn") ++ " and triggered reload!") ∧
      ({ st with files :=
          ("/" ++ sid ++ "/incoming/" ++ sf ++ "/_trigger_reload.jpg", create_trigger_image) ::
          ("/" ++ sid ++ "/actions/" ++ (sid ++ "_" ++ sf ++ ".atn"), bytes) :: st.files } :
          Store).files.lookup ("/" ++ sid ++ "/actions/" ++ (sid ++ "_" ++ sf ++ ".atn")) =
        some bytes ∧
      ({ st with files :=
          ("/" ++ sid ++ "/incoming/" ++ sf ++ "/_trigger_reload.jpg", create_trigger_image) ::
          ("/" ++ sid ++ "/actions/" ++ (sid ++ "_" ++ sf ++ ".atn"), bytes) :: st.files } :
          Store).files.lookup ("/" ++ sid ++ "/incoming/" ++ sf ++ "/_trigger_reload.jpg") =
        some create_trigger_image) := by
  constructor
  · intro h1 h2 hne
    have hbeq : (("/" ++ sid ++ "/actions/" ++ (sid ++ "_Root.atn")) ==
        ("/" ++ sid ++ "/incoming/_trigger_reload.jpg")) = false :=
      beq_eq_false_iff_ne.mpr hne
    refine ⟨?_, ?_, ?_⟩
    · simp [upload_action_to_station, upload, h1, h2, pyOptStr]
    · simp [List.lookup, hbeq]
    · simp [List.lookup]
  · intro h1 h2 hne
    have hbeq : (("/" ++ sid ++ "/actions/" ++ (sid ++ "_" ++ sf ++ ".atn")) ==
        ("/" ++ sid ++ "/incoming/" ++ sf ++ "/_trigger_reload.jpg")) = false :=
      beq_eq_false_iff_ne.mpr hne
    refine ⟨?_, ?_, ?_⟩
    · simp [upload_action_to_station, upload, h1, h2, pyOptStr]
    · simp [List.lookup, hbeq]
    · simp [List.lookup]

/-- C7 witness: a root upload and a subfolder upload on an empty store for
station HP1 with subfolder 001. -/
theorem c7_witness :
    upload_action_to_station c2Store "ATNBYTES" "HP1" "root" none =
      ({ c2Store with files :=
          ("/" ++ "HP1" ++ "/incoming/_trigger_reload.jpg", create_trigger_image) ::
          ("/" ++ "HP1" ++ "/actions/" ++ ("HP1" ++ "_Root.atn"), "ATNBYTES") ::
            c2Store.files },
        true, "✅ Uploaded as " ++ ("HP1" ++ "_Root.atn") ++ " and triggered reload!") ∧
    upload_action_to_station c2Store "ATNBYTES" "HP1" "subfolder" (some "001") =
      ({ c2Store with files :=
          ("/" ++ "HP1" ++ "/incoming/" ++ "001" ++ "/_trigger_reload.jpg",
            create_trigger_image) ::
          ("/" ++ "HP1" ++ "/actions/" ++ ("HP1" ++ "_" ++ "001" ++ ".atn"), "ATNBYTES") ::
            c2Store.files },
        true, "✅ Uploaded as " ++ ("HP1" ++ "_" ++ "001" ++ ".atn") ++
          " and triggered reload!") :=
  ⟨((c7_upload_action_paths c2Store "ATNBYTES" "HP1" "001").1
      (by simp [c2Store]) (by simp [c2Store]) (by decide)).1,
   ((c7_upload_action_paths c2Store "ATNBYTES" "HP1" "001").2
      (by simp [c2Store]) (by simp [c2Store]) (by decide)).1⟩

/-- C8: when the action blob upload succeeds but the subsequent
sentinel-file write fails, the operation reports failure (False plus an
error message) while the already-written action blob stays in the store:
nothing is rolled back. -/
theorem c8_no_rollback (st : Store) (bytes sid sf : String) :
    (("/" ++ sid ++ "/actions/" ++ (sid ++ "_Root.atn")) ∉ st.failPaths →
     ("/" ++ sid ++ "/incoming/_trigger_reload.jpg") ∈ st.failPaths →
      upload_action_to_station st bytes sid "root" none =
        ({ st with files :=
            ("/" ++ sid ++ "/actions/" ++ (sid ++ "_Root.atn"), bytes) :: st.files },
          false, "❌ Upload failed: " ++ errMsg DbxErr.apiFail) ∧
      ({ st with files :=
          ("/" ++ sid ++ "/actions/" ++ (sid ++ "_Root.atn"), bytes) :: st.files } :
          Store).files.lookup ("/" ++ sid ++ "/actions/" ++ (sid ++ "_Root.atn")) =
        some bytes) ∧
    (("/" ++ sid ++ "/actions/" ++ (sid ++ "_" ++ sf ++ ".atn")) ∉ st.failPaths →
     ("/" ++ sid ++ "/incoming/" ++ sf ++ "/_trigger_reload.jpg") ∈ st.failPaths →
      upload_action_to_station st bytes sid "subfolder" (some sf) =
        ({ st with files :=
            ("/" ++ sid ++ "/actions/" ++ (sid ++ "_" ++ sf ++ ".atn"), bytes) :: st.files },
          false, "❌ Upload failed: " ++ errMsg DbxErr.apiFail) ∧
      ({ st with files :=
          ("/" ++ sid ++ "/actions/" ++ (sid ++ "_" ++ sf ++ ".atn"), bytes) :: st.files } :
          Store).files.lookup ("/" ++ sid ++ "/actions/" ++ (sid ++ "_" ++ sf ++ ".atn")) =
        some bytes) := by
  constructor
  · intro h1 h2
    refine ⟨?_, ?_⟩
    · simp [upload_action_to_station, upload, h1, h2, pyOptStr]
    · simp [List.lookup]
  · intro h1 h2
    refine ⟨?_, ?_⟩
    · simp [upload_action_to_station, upload, h1, h2, pyOptStr]
    · simp [List.lookup]

/-- C8 witness: on a store where exactly the trigger writes fail, the
action blob is written, failure is reported, and the blob persists. -/
theorem c8_witness :
    upload_action_to_station c8Store "ATNBYTES" "HP1" "root" none =
      ({ c8Store with files :=
          ("/" ++ "HP1" ++ "/actions/" ++ ("HP1" ++ "_Root.atn"), "ATNBYTES") ::
            c8Store.files },
        false, "❌ Upload failed: " ++ errMsg DbxErr.apiFail) ∧
    ({ c8Store with files :=
        ("/" ++ "HP1" ++ "/actions/" ++ ("HP1" ++ "_Root.atn"), "ATNBYTES") ::
          c8Store.files } : Store).files.lookup
      ("/" ++ "HP1" ++ "/actions/" ++ ("HP1" ++ "_Root.atn")) = some "ATNBYTES" :=
  (c8_no_rollback c8Store "ATNBYTES" "HP1" "001").1 (by decide) (by decide)

/-- C9: uploading a template for station s with non-empty suffix t writes
to /s/templates/background-t-.jpg (resp. overlay-t-.png), and with the
suffix omitted (empty) writes to the un-suffixed background.jpg
(resp. overlay.png) under the same folder. -/
theorem c9_template_paths (st : Store) (s t bytes : String) :
    (t ≠ "" → ("/" ++ s ++ "/templates/" ++ ("background" ++ t ++ ".jpg")) ∉ st.failPaths →
      upload_background st s t bytes =
        .ok ({ st with files :=
            ("/" ++ s ++ "/templates/" ++ ("background" ++ t ++ ".jpg"), bytes) :: st.files },
          "background" ++ t ++ ".jpg")) ∧
    (("/" ++ s ++ "/templates/" ++ "background.jpg") ∉ st.failPaths →
      upload_background st s "" bytes =
        .ok ({ st with files :=
            ("/" ++ s ++ "/templates/" ++ "background.jpg", bytes) :: st.files },
          "background.jpg")) ∧
    (t ≠ "" → ("/" ++ s ++ "/templates/" ++ ("overlay" ++ t ++ ".png")) ∉ st.failPaths →
      upload_overlay st s t bytes =
        .ok ({ st with files :=
            ("/" ++ s ++ "/templates/" ++ ("overlay" ++ t ++ ".png"), bytes) :: st.files },
          "overlay" ++ t ++ ".png")) ∧
    (("/" ++ s ++ "/templates/" ++ "overlay.png") ∉ st.failPaths →
      upload_overlay st s "" bytes =
        .ok ({ st with files :=
            ("/" ++ s ++ "/templates/" ++ "overlay.png", bytes) :: st.files },
          "overlay.png")) := by
  refine ⟨?_, ?_, ?_, ?_⟩
  · intro ht hf
    simp [upload_background, upload_asset, upload, ht, hf]
  · intro hf
    simp [upload_background, upload_asset, upload, hf]
  · intro ht hf
    simp [upload_overlay, upload_asset, upload, ht, hf]
  · intro hf
    simp [upload_overlay, upload_asset, upload, hf]

/-- C9 witness: suffix 007 and the empty suffix for station HP1, for both
the background and the overlay uploads. -/
theorem c9_witness :
    upload_background c2Store "HP1" "007" "JPGBYTES" =
      .ok ({ c2Store with files :=
          ("/" ++ "HP1" ++ "/templates/" ++ ("background" ++ "007" ++ ".jpg"), "JPGBYTES") ::
            c2Store.files },
        "background" ++ "007" ++ ".jpg") ∧
    upload_background c2Store "HP1" "" "JPGBYTES" =
      .ok ({ c2Store with files :=
          ("/" ++ "HP1" ++ "/templates/" ++ "background.jpg", "JPGBYTES") :: c2Store.files },
        "background.jpg") ∧
    upload_overlay c2Store "HP1" "007" "PNGBYTES" =
      .ok ({ c2Store with files :=
          ("/" ++ "HP1" ++ "/templates/" ++ ("overlay" ++ "007" ++ ".png"), "PNGBYTES") ::
            c2Store.files },
        "overlay" ++ "007" ++ ".png") ∧
    upload_overlay c2Store "HP1" "" "PNGBYTES" =
      .ok ({ c2Store with files :=
          ("/" ++ "HP1" ++ "/templates/" ++ "overlay.png", "PNGBYTES") :: c2Store.files },
        "overlay.png") :=
  ⟨(c9_template_paths c2Store "HP1" "007" "JPGBYTES").1 (by decide) (by simp [c2Store]),
   (c9_template_paths c2Store "HP1" "007" "JPGBYTES").2.1 (by simp [c2Store]),
   (c9_template_paths c2Store "HP1" "007" "PNGBYTES").2.2.1 (by decide) (by simp [c2Store]),
   (c9_template_paths c2Store "HP1" "007" "PNGBYTES").2.2.2 (by simp [c2Store])⟩

/-! ## Claim C10 -/

theorem actions_foldl_eq (entries : List Entry) : ∀ acc : List String,
    entries.foldl
      (fun actions entry =>
        if endsWithS entry.name ".atn" then actions ++ [pyReplace entry.name ".atn" ""]
        else actions) acc =
    acc ++ (entries.filter (fun e => endsWithS e.name ".atn")).map
      (fun e => pyReplace e.name ".atn" "") := by
  induction entries with
  | nil => intro acc; simp
  | cons e t ih =>
    intro acc
    by_cases hp : endsWithS e.name ".atn" = true
    · simp [hp, ih]
    · simp only [Bool.not_eq_true] at hp
      simp [hp, ih]

/-- C10 (amended): both action-listing operations return, in ascending
sorted order, the names of exactly the entries ending in .atn, each
transformed by removing every occurrence of the substring ".atn" (Python
str.replace), not only the trailing suffix; a failed folder listing gives
the empty list. -/
theorem c10_action_listing (st : Store) (sid : String) :
    (st.listing ACTIONS_FOLDER = none → get_available_actions st = []) ∧
    (∀ entries, st.listing ACTIONS_FOLDER = some entries →
      get_available_actions st =
        pysort ((entries.filter (fun e => endsWithS e.name ".atn")).map
          (fun e => pyReplace e.name ".atn" "")) ∧
      SortedStr (get_available_actions st) ∧
      List.Perm (get_available_actions st)
        ((entries.filter (fun e => endsWithS e.name ".atn")).map
          (fun e => pyReplace e.name ".atn" ""))) ∧
    (st.listing ("/" ++ sid ++ "/actions") = none → get_station_actions st sid = []) ∧
    (∀ entries, st.listing ("/" ++ sid ++ "/actions") = some entries →
      get_station_actions st sid =
        pysort ((entries.filter (fun e => endsWithS e.name ".atn")).map
          (fun e => pyReplace e.name ".atn" "")) ∧
      SortedStr (get_station_actions st sid) ∧
      List.Perm (get_station_actions st sid)
        ((entries.filter (fun e => endsWithS e.name ".atn")).map
          (fun e => pyReplace e.name ".atn" ""))) := by
  refine ⟨?_, ?_, ?_, ?_⟩
  · intro h
    simp [get_available_actions, h, pysort]
  · intro entries h
    have he : get_available_actions st =
        pysort ((entries.filter (fun e => endsWithS e.name ".atn")).map
          (fun e => pyReplace e.name ".atn" "")) := by
      simp only [get_available_actions, h]
      rw [actions_foldl_eq entries []]
      simp
    refine ⟨he, ?_, ?_⟩
    · rw [he]
      exact pysort_sorted _
    · rw [he]
      exact pysort_perm _
  · intro h
    simp [get_station_actions, h, pysort]
  · intro entries h
    have he : get_station_actions st sid =
        pysort ((entries.filter (fun e => endsWithS e.name ".atn")).map
          (fun e => pyReplace e.name ".atn" "")) := by
      simp only [get_station_actions, h]
      rw [actions_foldl_eq entries []]
      simp
    refine ⟨he, ?_, ?_⟩
    · rw [he]
      exact pysort_sorted _
    · rw [he]
      exact pysort_perm _

/-- C10 counterexample: an entry named a.atnb.atn ends with .atn, but the
code's replace removes every ".atn" occurrence and lists "ab", while the
claimed suffix-stripping would list "a.atnb". -/
theorem c10_counterexample :
    get_available_actions c10Store = ["ab"] ∧
    get_available_actions_claimed c10Store = ["a.atnb"] ∧
    (["ab"] : List String) ≠ ["a.atnb"] := by
  refine ⟨rfl, rfl, by decide⟩

/-- C10 witness: the amended claim at a concrete listing, giving the
sorted stripped names for the global folder and for station HP1. -/
theorem c10_witness :
    get_available_actions c10WStore =
      pysort (([⟨"b.atn", "/g/b.atn"⟩, ⟨"a.atn", "/g/a.atn"⟩,
        ⟨"x.txt", "/g/x.txt"⟩] : List Entry).filter
          (fun e => endsWithS e.name ".atn") |>.map (fun e => pyReplace e.name ".atn" "")) ∧
    get_available_actions c10WStore = ["a", "b"] ∧
    get_station_actions c10WStore "HP1" = ["HP1_Root"] := by
  refine ⟨((c10_action_listing c10WStore "HP1").2.1 _ rfl).1, ?_, ?_⟩
  · rw [((c10_action_listing c10WStore "HP1").2.1 _ rfl).1]
    rfl
  · rw [((c10_action_listing c10WStore "HP1").2.2.2 _ rfl).1]
    rfl

end Photobooth
